/-
Verification of the framed binary protocol stack of the pc_tool repository.

Shallow embedding of:
  * the CRC-8 engines (BootProtocol.__calc_crc8, FwImage.__calc_crc8,
    StpsMessage.__calc_crc, StpsParser.__calc_crc8),
  * the bootloader protocol codec (BootProtocol.py: parser, send_connect,
    send_prepare, send_flash_data, send_exit, send_info, get_status_str),
  * the STPS framer and message builder (Scp.py: StpsMessage, StpsParser),
  * the firmware image reader and the upgrade orchestrator callbacks
    (BootFrame.py: FwImage.validate, __browse_btn_press,
    __boot_prepare_rx_cmpt_cb, __boot_flash_rx_cmpt_cb,
    __boot_exit_rx_cmpt_cb, __boot_connect_rx_cmpt_cb).

Python integers are modeled as Nat; bit masks, shifts and xors use Nat
bitwise operations; reception buffers are lists of Nat; wall-clock time
(time.time()) is a rational parameter passed to each parse call.
-/
import Mathlib

namespace PcTool

/-- One round of the CRC-8 inner loop of `BootProtocol.__calc_crc8`,
`FwImage.__calc_crc8` and `StpsParser.__calc_crc8`:
`if 0x80 == (crc8 & 0x80): crc8 = ((crc8 << 1) ^ poly) else: crc8 = (crc8 << 1)`
with `poly = 0x07`.  The Python code does not mask inside the loop; the
final `& 0xFF` is applied by the enclosing function. -/
def crcShiftStep (crc8 : Nat) : Nat :=
  if 0x80 = (crc8 &&& 0x80) then (crc8 <<< 1) ^^^ 0x07 else crc8 <<< 1

/-- The `for n in range(8)` loop applying `crcShiftStep` n times. -/
def crcRounds : Nat → Nat → Nat
  | 0, crc8 => crc8
  | n + 1, crc8 => crcRounds n (crcShiftStep crc8)

/-- `BootProtocol.__calc_crc8` (BootProtocol.py lines 288-302): seed `0xB6`,
polynomial `0x07`; each input byte is xored into the running value and
masked to 8 bits (`crc8 = ((crc8 ^ byte) & 0xFF)`), followed by 8 shift
rounds; the return value is `crc8 & 0xFF`. -/
def BootProtocol_calc_crc8 (data : List Nat) : Nat :=
  (data.foldl (fun crc8 byte => crcRounds 8 ((crc8 ^^^ byte) &&& 0xFF)) 0xB6) &&& 0xFF

/-- `FwImage.__calc_crc8` (BootFrame.py lines 253-267): byte-for-byte the
same algorithm and seed as `BootProtocol.__calc_crc8`. -/
def FwImage_calc_crc8 (data : List Nat) : Nat :=
  (data.foldl (fun crc8 byte => crcRounds 8 ((crc8 ^^^ byte) &&& 0xFF)) 0xB6) &&& 0xFF

/-- `StpsParser.__calc_crc8` (Scp.py lines 369-383): same masked algorithm
with seed `0x34`. -/
def StpsParser_calc_crc8 (data : List Nat) : Nat :=
  (data.foldl (fun crc8 byte => crcRounds 8 ((crc8 ^^^ byte) &&& 0xFF)) 0x34) &&& 0xFF

/-- One round of the inner loop of `StpsMessage.__calc_crc` (Scp.py lines
241-245): the bit test is written `if crc8 & 0x80:` (truthiness, i.e. the
masked value is nonzero) instead of `0x80 == (crc8 & 0x80)`. -/
def stpsMsgShiftStep (crc8 : Nat) : Nat :=
  if crc8 &&& 0x80 ≠ 0 then (crc8 <<< 1) ^^^ 0x07 else crc8 <<< 1

/-- The `for j in range(8)` loop of `StpsMessage.__calc_crc`. -/
def stpsMsgRounds : Nat → Nat → Nat
  | 0, crc8 => crc8
  | n + 1, crc8 => stpsMsgRounds n (stpsMsgShiftStep crc8)

/-- `StpsMessage.__calc_crc` (Scp.py lines 232-247): seed `0x34`; unlike the
parser variant the per-byte xor is NOT masked (`crc8 = (crc8 ^ data[i])`);
the return value is `crc8 & 0xFF`.  The `size` argument is always called
with `len(data)`, so the `for i in range(size)` loop is a fold over the
whole list. -/
def StpsMessage_calc_crc (data : List Nat) : Nat :=
  (data.foldl (fun crc8 b => stpsMsgRounds 8 (crc8 ^^^ b)) 0x34) &&& 0xFF

lemma and255_eq_mod (a : Nat) : a &&& 0xFF = a % 256 := by
  have h := Nat.and_pow_two_sub_one_eq_mod a 8
  norm_num at h
  exact h

lemma and65535_eq_mod (a : Nat) : a &&& 0xFFFF = a % 65536 := by
  have h := Nat.and_pow_two_sub_one_eq_mod a 16
  norm_num at h
  exact h

lemma and128_eq (a : Nat) : a &&& 0x80 = if a.testBit 7 then 0x80 else 0 := by
  have h := Nat.and_two_pow a 7
  norm_num at h
  rw [h]
  cases a.testBit 7 <;> simp

lemma testBit7_of_mod_eq {a b : Nat} (h : a % 256 = b % 256) :
    a.testBit 7 = b.testBit 7 := by
  have ha : (a % 256).testBit 7 = a.testBit 7 := by
    have h1 := Nat.testBit_mod_two_pow a 8 7
    norm_num at h1
    exact h1
  have hb : (b % 256).testBit 7 = b.testBit 7 := by
    have h1 := Nat.testBit_mod_two_pow b 8 7
    norm_num at h1
    exact h1
  rw [← ha, ← hb, h]

lemma xor_mod256 (x c : Nat) : (x ^^^ c) % 256 = (x % 256) ^^^ (c % 256) := by
  apply Nat.eq_of_testBit_eq
  intro i
  have h256 : (256 : Nat) = 2 ^ 8 := by norm_num
  rw [h256]
  simp only [Nat.testBit_mod_two_pow, Nat.testBit_xor]
  by_cases hi : i < 8 <;> simp [hi]

lemma shl1_mod256 (a : Nat) : (a <<< 1) % 256 = (2 * (a % 128)) % 256 := by
  rw [Nat.shiftLeft_eq]
  have h2 : a * 2 ^ 1 = 2 * a := by ring
  rw [h2]
  have h : (2 * a) % 256 = 2 * (a % 128) := by
    have h1 := Nat.mul_mod_mul_left 2 a 128
    norm_num at h1
    exact h1
  have hlt : a % 128 < 128 := Nat.mod_lt _ (by norm_num)
  rw [h]
  omega

lemma crcShiftStep_mod {a b : Nat} (h : a % 256 = b % 256) :
    crcShiftStep a % 256 = crcShiftStep b % 256 := by
  have hbit : a.testBit 7 = b.testBit 7 := testBit7_of_mod_eq h
  have hmod128 : a % 128 = b % 128 := by
    have ha : a % 256 % 128 = a % 128 := Nat.mod_mod_of_dvd a (by norm_num)
    have hb : b % 256 % 128 = b % 128 := Nat.mod_mod_of_dvd b (by norm_num)
    rw [← ha, ← hb, h]
  have hshl : (a <<< 1) % 256 = (b <<< 1) % 256 := by
    rw [shl1_mod256, shl1_mod256, hmod128]
  have hand : a &&& 0x80 = b &&& 0x80 := by
    rw [and128_eq, and128_eq, hbit]
  unfold crcShiftStep
  rw [hand]
  by_cases hc : (0x80 : Nat) = b &&& 0x80
  · rw [if_pos hc, if_pos hc, xor_mod256 (a <<< 1) 7, xor_mod256 (b <<< 1) 7, hshl]
  · rw [if_neg hc, if_neg hc]
    exact hshl

lemma crcRounds_mod (n : Nat) {a b : Nat} (h : a % 256 = b % 256) :
    crcRounds n a % 256 = crcRounds n b % 256 := by
  induction n generalizing a b with
  | zero => exact h
  | succ m ih => exact ih (crcShiftStep_mod h)

lemma stpsMsgShiftStep_eq (a : Nat) : stpsMsgShiftStep a = crcShiftStep a := by
  unfold stpsMsgShiftStep crcShiftStep
  rw [and128_eq]
  cases h : a.testBit 7 <;> simp

lemma stpsMsgRounds_eq (n a : Nat) : stpsMsgRounds n a = crcRounds n a := by
  induction n generalizing a with
  | zero => rfl
  | succ m ih =>
    unfold stpsMsgRounds crcRounds
    rw [stpsMsgShiftStep_eq, ih]

/-- The unmasked sender CRC (`StpsMessage.__calc_crc`) and the masked
receiver CRC (`StpsParser.__calc_crc8`) agree on every byte list: the
per-byte mask only truncates bits that can never influence the low 8 bits
of the result. -/
lemma StpsMessage_calc_crc_eq (data : List Nat) :
    StpsMessage_calc_crc data = StpsParser_calc_crc8 data := by
  unfold StpsMessage_calc_crc StpsParser_calc_crc8
  rw [and255_eq_mod, and255_eq_mod]
  have main : ∀ (l : List Nat) (a b : Nat), a % 256 = b % 256 →
      (l.foldl (fun crc8 x => stpsMsgRounds 8 (crc8 ^^^ x)) a) % 256 =
      (l.foldl (fun crc8 x => crcRounds 8 ((crc8 ^^^ x) &&& 0xFF)) b) % 256 := by
    intro l
    induction l with
    | nil => intro a b h; exact h
    | cons x xs ih =>
      intro a b h
      simp only [List.foldl_cons]
      apply ih
      rw [stpsMsgRounds_eq]
      apply crcRounds_mod
      rw [and255_eq_mod]
      rw [Nat.mod_mod_of_dvd _ (dvd_refl 256)]
      rw [xor_mod256 a x, xor_mod256 b x, h]
  exact main data 0x34 0x34 rfl

lemma or_shift8_eq (a b : Nat) (hb : b < 256) : (a <<< 8) ||| b = 2 ^ 8 * a + b := by
  apply Nat.eq_of_testBit_eq
  intro j
  have hb2 : b < 2 ^ 8 := lt_of_lt_of_eq hb (by norm_num)
  rw [Nat.testBit_or, Nat.testBit_shiftLeft, Nat.testBit_mul_pow_two_add a hb2 j]
  by_cases hj : j < 8
  · have h1 : ¬(j ≥ 8) := by omega
    simp [hj, h1]
  · have hbf : b.testBit j = false := by
      apply Nat.testBit_lt_two_pow
      calc b < 256 := hb
        _ = 2 ^ 8 := by norm_num
        _ ≤ 2 ^ j := Nat.pow_le_pow_right (by norm_num) (by omega)
    have h1 : j ≥ 8 := by omega
    simp [hj, h1, hbf]

/-- The value the parser decodes from the two length bytes written by the
send-side builders: low byte `size & 0xFF`, high byte `(size >> 8) & 0xFF`,
decoded as `((high << 8) | (low & 0xFF)) & 0xFFFF`. -/
lemma lenval_builder (size : Nat) :
    ((((size >>> 8) &&& 0xFF) <<< 8) ||| ((size &&& 0xFF) &&& 0xFF)) &&& 0xFFFF
      = size % 65536 := by
  rw [and255_eq_mod size, and255_eq_mod (size % 256), Nat.mod_mod_of_dvd _ (dvd_refl 256)]
  rw [and255_eq_mod (size >>> 8), Nat.shiftRight_eq_div_pow]
  rw [or_shift8_eq _ _ (Nat.mod_lt _ (by norm_num))]
  rw [and65535_eq_mod]
  have h := @Nat.mod_mul 256 256 size
  norm_num at h ⊢
  omega

/-- `BootProtocol.PREAMBLE`. -/
def PREAMBLE : List Nat := [0xB0, 0x07]

/-- `BootProtocol.cmd_type`: the five supported response command codes
(connect-rsp, prepare-rsp, flash-rsp, exit-rsp, info-rsp). -/
def cmd_type : List Nat := [0x11, 0x21, 0x31, 0x41, 0xA1]

/-- The dispatch loop of `BootProtocol.parser` (lines 150-157):
`for n, cmd in enumerate(self.cmd_type): if cmd == command: self.cb[n](status, payload)`.
Each raised callback is recorded as an event `(cmd, status, payload)`;
the command code determines the callback slot `n`. -/
def dispatchEvents (command status : Nat) (payload : List Nat) :
    List (Nat × Nat × List Nat) :=
  cmd_type.foldl (fun acc cmd => if cmd = command then acc ++ [(cmd, status, payload)] else acc) []

/-- The CRC value `BootProtocol.parser` computes over a buffer holding a
complete frame (lines 131-143): partial CRC-8 of the two length bytes, of
the source, command and status bytes, xored together, and — only when the
decoded length value is positive — xored with the partial CRC-8 of
`rx_q[8:]`. -/
def parser_crc_calc (q : List Nat) : Nat :=
  let lenght := (q.drop 2).take 2
  let source := q.getD 4 0
  let command := q.getD 5 0
  let status := q.getD 6 0
  let lenght_val := ((lenght.getD 1 0 <<< 8) ||| (lenght.getD 0 0 &&& 0xFF)) &&& 0xFFFF
  let calc0 := BootProtocol_calc_crc8 lenght ^^^ BootProtocol_calc_crc8 [source]
      ^^^ BootProtocol_calc_crc8 [command] ^^^ BootProtocol_calc_crc8 [status]
  if 0 < lenght_val then calc0 ^^^ BootProtocol_calc_crc8 (q.drop 8) else calc0

/-- The receive-side CRC check of `BootProtocol.parser` (line 148):
`calc_crc == self.rx_q[7]`. -/
def parser_crc_ok (q : List Nat) : Bool := parser_crc_calc q == q.getD 7 0

/-- One call of `BootProtocol.parser` (BootProtocol.py lines 106-168) on a
reassembly buffer `rx_q` with a newly received `chunk`: append the chunk;
with at least 8 bytes buffered, check the preamble (mismatch discards the
whole buffer), decode the length, and once the whole frame is buffered
compare the CRC, dispatching on success; the buffer is reset after any
complete frame, matching or not.  Returns the new buffer and the list of
raised callback events. -/
def BootProtocol_parser_step (rx_q chunk : List Nat) :
    List Nat × List (Nat × Nat × List Nat) :=
  let q := rx_q ++ chunk
  if 8 ≤ q.length then
    if q.take 2 = PREAMBLE then
      let lenght := (q.drop 2).take 2
      let lenght_val := ((lenght.getD 1 0 <<< 8) ||| (lenght.getD 0 0 &&& 0xFF)) &&& 0xFFFF
      if lenght_val ≤ q.length - 8 then
        let command := q.getD 5 0
        let status := q.getD 6 0
        let payload := if 0 < lenght_val then q.drop 8 else []
        if parser_crc_calc q = q.getD 7 0 then ([], dispatchEvents command status payload)
        else ([], [])
      else (q, [])
    else ([], [])
  else (q, [])

/-- Feeding a sequence of chunks to `BootProtocol.parser`, accumulating
the dispatched events. -/
def BootProtocol_parser_run :
    List Nat × List (Nat × Nat × List Nat) → List (List Nat) →
    List Nat × List (Nat × Nat × List Nat)
  | s, [] => s
  | (q, evs), chunk :: rest =>
      let r := BootProtocol_parser_step q chunk
      BootProtocol_parser_run (r.1, evs ++ r.2) rest

/-- `BootProtocol.send_connect` (lines 183-189): hardcoded frame. -/
def send_connect : List Nat := [0xB0, 0x07, 0x00, 0x00, 0x2B, 0x10, 0x00, 0x9B]

/-- `BootProtocol.send_exit` (lines 252-258): hardcoded frame. -/
def send_exit_frame : List Nat := [0xB0, 0x07, 0x00, 0x00, 0x2B, 0x40, 0x00, 0x2C]

/-- `BootProtocol.send_info` (lines 265-271): hardcoded frame. -/
def send_info_frame : List Nat := [0xB0, 0x07, 0x00, 0x00, 0x2B, 0xA0, 0x00, 0x82]

/-- `BootProtocol.send_prepare` (lines 197-217): length bytes from
`len(image_header)`, source `0x2B`, command `0x20`, status `0x00`; the CRC
byte is the xor of the partial CRCs of `prepare_cmd[2:4]`, source, command,
status, and `prepare_cmd[8:]` (the payload, also when it is empty). -/
def send_prepare (image_header : List Nat) : List Nat :=
  let size := image_header.length
  let crc := BootProtocol_calc_crc8 [size &&& 0xFF, (size >>> 8) &&& 0xFF]
      ^^^ BootProtocol_calc_crc8 [0x2B] ^^^ BootProtocol_calc_crc8 [0x20]
      ^^^ BootProtocol_calc_crc8 [0x00] ^^^ BootProtocol_calc_crc8 image_header
  [0xB0, 0x07, size &&& 0xFF, (size >>> 8) &&& 0xFF, 0x2B, 0x20, 0x00, crc] ++ image_header

/-- `BootProtocol.send_flash_data` (lines 226-245): same framing with
command `0x30`; the `size` argument fills the length bytes and `data` is
appended as payload; the CRC xors the partial CRC of `data` (also when it
is empty). -/
def send_flash_data (data : List Nat) (size : Nat) : List Nat :=
  let crc := BootProtocol_calc_crc8 [size &&& 0xFF, (size >>> 8) &&& 0xFF]
      ^^^ BootProtocol_calc_crc8 [0x2B] ^^^ BootProtocol_calc_crc8 [0x30]
      ^^^ BootProtocol_calc_crc8 [0x00] ^^^ BootProtocol_calc_crc8 data
  [0xB0, 0x07, size &&& 0xFF, (size >>> 8) &&& 0xFF, 0x2B, 0x30, 0x00, crc] ++ data

/-- C2: the field-wise CRC-8 with seed 0xB6 and polynomial 0x07 over length
bytes `00 00`, source `2B`, command `10`, status `00` — each partial
computed independently from the seed and combined with xor — yields `0x9B`,
and `send_connect` emits exactly the 8-byte frame `B0 07 00 00 2B 10 00 9B`
whose CRC byte equals that value. -/
theorem crc_literal_vector_connect :
    (BootProtocol_calc_crc8 [0x00, 0x00] ^^^ BootProtocol_calc_crc8 [0x2B]
      ^^^ BootProtocol_calc_crc8 [0x10] ^^^ BootProtocol_calc_crc8 [0x00]) = 0x9B
    ∧ send_connect = [0xB0, 0x07, 0x00, 0x00, 0x2B, 0x10, 0x00, 0x9B]
    ∧ send_connect.getD 7 0 =
      (BootProtocol_calc_crc8 [0x00, 0x00] ^^^ BootProtocol_calc_crc8 [0x2B]
        ^^^ BootProtocol_calc_crc8 [0x10] ^^^ BootProtocol_calc_crc8 [0x00]) := by
  refine ⟨by decide, rfl, by decide⟩

/-- The CRC byte a frame must carry to pass the receive-side check of
`BootProtocol.parser`: xor of the partial CRCs of the two length bytes,
source, command and status, xored with the partial CRC of the payload when
the payload is nonempty (the parser skips the payload partial when the
decoded length is zero). -/
def frame_crc (src cmd st : Nat) (payload : List Nat) : Nat :=
  let base := BootProtocol_calc_crc8 [payload.length &&& 0xFF, (payload.length >>> 8) &&& 0xFF]
      ^^^ BootProtocol_calc_crc8 [src] ^^^ BootProtocol_calc_crc8 [cmd]
      ^^^ BootProtocol_calc_crc8 [st]
  if 0 < payload.length then base ^^^ BootProtocol_calc_crc8 payload else base

/-- A valid frame of the bootloader wire format: preamble `B0 07`,
little-endian length of the payload, source, command and status bytes,
the CRC byte demanded by the receive side, then the payload. -/
def mkFrame (src cmd st : Nat) (payload : List Nat) : List Nat :=
  [0xB0, 0x07, payload.length &&& 0xFF, (payload.length >>> 8) &&& 0xFF, src, cmd, st,
    frame_crc src cmd st payload] ++ payload

lemma cons8_take2 (b0 b1 b2 b3 b4 b5 b6 b7 : Nat) (l : List Nat) :
    (b0 :: b1 :: b2 :: b3 :: b4 :: b5 :: b6 :: b7 :: l).take 2 = [b0, b1] := rfl

lemma cons8_drop2take2 (b0 b1 b2 b3 b4 b5 b6 b7 : Nat) (l : List Nat) :
    ((b0 :: b1 :: b2 :: b3 :: b4 :: b5 :: b6 :: b7 :: l).drop 2).take 2 = [b2, b3] := rfl

lemma cons8_getD4 (b0 b1 b2 b3 b4 b5 b6 b7 : Nat) (l : List Nat) :
    (b0 :: b1 :: b2 :: b3 :: b4 :: b5 :: b6 :: b7 :: l).getD 4 0 = b4 := rfl

lemma cons8_getD5 (b0 b1 b2 b3 b4 b5 b6 b7 : Nat) (l : List Nat) :
    (b0 :: b1 :: b2 :: b3 :: b4 :: b5 :: b6 :: b7 :: l).getD 5 0 = b5 := rfl

lemma cons8_getD6 (b0 b1 b2 b3 b4 b5 b6 b7 : Nat) (l : List Nat) :
    (b0 :: b1 :: b2 :: b3 :: b4 :: b5 :: b6 :: b7 :: l).getD 6 0 = b6 := rfl

lemma cons8_getD7 (b0 b1 b2 b3 b4 b5 b6 b7 : Nat) (l : List Nat) :
    (b0 :: b1 :: b2 :: b3 :: b4 :: b5 :: b6 :: b7 :: l).getD 7 0 = b7 := rfl

lemma cons8_drop8 (b0 b1 b2 b3 b4 b5 b6 b7 : Nat) (l : List Nat) :
    (b0 :: b1 :: b2 :: b3 :: b4 :: b5 :: b6 :: b7 :: l).drop 8 = l := rfl

lemma cons8_length (b0 b1 b2 b3 b4 b5 b6 b7 : Nat) (l : List Nat) :
    (b0 :: b1 :: b2 :: b3 :: b4 :: b5 :: b6 :: b7 :: l).length = 8 + l.length := by
  simp [List.length_cons]
  omega

lemma pair_getD0 (a b : Nat) : ([a, b] : List Nat).getD 0 0 = a := rfl

lemma pair_getD1 (a b : Nat) : ([a, b] : List Nat).getD 1 0 = b := rfl

lemma dispatchEvents_of_mem {command : Nat} (h : command ∈ cmd_type) (st : Nat)
    (p : List Nat) : dispatchEvents command st p = [(command, st, p)] := by
  simp only [cmd_type, List.mem_cons, List.not_mem_nil, or_false] at h
  rcases h with h | h | h | h | h <;> subst h <;> rfl

lemma mkFrame_eq_cons (src cmd st : Nat) (payload : List Nat) :
    mkFrame src cmd st payload =
      0xB0 :: 0x07 :: (payload.length &&& 0xFF) :: ((payload.length >>> 8) &&& 0xFF) ::
        src :: cmd :: st :: frame_crc src cmd st payload :: payload := rfl

lemma mkFrame_length (src cmd st : Nat) (payload : List Nat) :
    (mkFrame src cmd st payload).length = 8 + payload.length := by
  rw [mkFrame_eq_cons, cons8_length]

/-- Feeding a chunk that completes a valid frame (with a supported response
command) dispatches exactly that frame's `(command, status, payload)` and
clears the buffer. -/
lemma parser_step_complete (src cmd st : Nat) (payload : List Nat)
    (hL : payload.length < 65536) (hcmd : cmd ∈ cmd_type)
    (done c : List Nat) (heq : done ++ c = mkFrame src cmd st payload) :
    BootProtocol_parser_step done c = ([], [(cmd, st, payload)]) := by
  have hq : done ++ c =
      0xB0 :: 0x07 :: (payload.length &&& 0xFF) :: ((payload.length >>> 8) &&& 0xFF) ::
        src :: cmd :: st :: frame_crc src cmd st payload :: payload := by
    rw [heq, mkFrame_eq_cons]
  have hcrc : parser_crc_calc
      (0xB0 :: 0x07 :: (payload.length &&& 0xFF) :: ((payload.length >>> 8) &&& 0xFF) ::
        src :: cmd :: st :: frame_crc src cmd st payload :: payload) =
      frame_crc src cmd st payload := by
    simp only [parser_crc_calc]
    rw [cons8_drop2take2, cons8_getD4, cons8_getD5, cons8_getD6, cons8_drop8,
      pair_getD0, pair_getD1, lenval_builder, Nat.mod_eq_of_lt hL]
    rfl
  simp only [BootProtocol_parser_step, hq]
  rw [cons8_take2, cons8_drop2take2, cons8_getD5, cons8_getD6, cons8_getD7, cons8_drop8,
    pair_getD0, pair_getD1, lenval_builder, Nat.mod_eq_of_lt hL, cons8_length]
  rw [if_pos (by omega : 8 ≤ 8 + payload.length)]
  rw [if_pos (show ([0xB0, 0x07] : List Nat) = PREAMBLE from rfl)]
  rw [if_pos (by omega : payload.length ≤ 8 + payload.length - 8)]
  rw [if_pos hcrc]
  have hpay : (if 0 < payload.length then payload else []) = payload := by
    by_cases h : 0 < payload.length
    · rw [if_pos h]
    · rw [if_neg h]
      have hnil : payload = [] := List.eq_nil_of_length_eq_zero (by omega)
      rw [hnil]
  rw [hpay, dispatchEvents_of_mem hcmd]

/-- Feeding a chunk that still leaves the buffer a proper prefix of a valid
frame neither dispatches nor disturbs the buffer. -/
lemma parser_step_incomplete (src cmd st : Nat) (payload : List Nat)
    (hL : payload.length < 65536)
    (done c rest : List Nat) (hrest : rest ≠ [])
    (heq : (done ++ c) ++ rest = mkFrame src cmd st payload) :
    BootProtocol_parser_step done c = (done ++ c, []) := by
  by_cases h8 : 8 ≤ (done ++ c).length
  · have hlen : (done ++ c).length + rest.length = 8 + payload.length := by
      have h1 := congrArg List.length heq
      rw [mkFrame_length] at h1
      simp only [List.length_append] at h1 ⊢
      omega
    have hlt : (done ++ c).length < 8 + payload.length := by
      have hr : 0 < rest.length := List.length_pos.mpr hrest
      omega
    obtain ⟨k, hk⟩ : ∃ k, (done ++ c).length = k + 8 := ⟨(done ++ c).length - 8, by omega⟩
    have hklt : k < payload.length := by omega
    have hq : done ++ c =
        0xB0 :: 0x07 :: (payload.length &&& 0xFF) :: ((payload.length >>> 8) &&& 0xFF) ::
          src :: cmd :: st :: frame_crc src cmd st payload :: payload.take k := by
      have h1 : done ++ c = (mkFrame src cmd st payload).take (done ++ c).length := by
        rw [← heq, List.take_left]
      have h2 : ∀ (l : List Nat) (n : Nat),
          (0xB0 :: 0x07 :: (payload.length &&& 0xFF) :: ((payload.length >>> 8) &&& 0xFF) ::
            src :: cmd :: st :: frame_crc src cmd st payload :: l).take (n + 8) =
          0xB0 :: 0x07 :: (payload.length &&& 0xFF) :: ((payload.length >>> 8) &&& 0xFF) ::
            src :: cmd :: st :: frame_crc src cmd st payload :: l.take n := by
        intro l n
        rfl
      rw [h1, hk, mkFrame_eq_cons, h2]
    simp only [BootProtocol_parser_step]
    rw [hq]
    rw [cons8_take2, cons8_drop2take2, pair_getD0, pair_getD1, lenval_builder,
      Nat.mod_eq_of_lt hL, cons8_length]
    rw [if_pos (by omega : 8 ≤ 8 + (payload.take k).length)]
    rw [if_pos (show ([0xB0, 0x07] : List Nat) = PREAMBLE from rfl)]
    have htk : (payload.take k).length = k := by
      rw [List.length_take]
      omega
    rw [if_neg (by rw [htk]; omega :
      ¬(payload.length ≤ 8 + (payload.take k).length - 8))]
  · simp only [BootProtocol_parser_step]
    rw [if_neg h8]

/-- Calls of the parser on empty chunks with an empty buffer do nothing. -/
lemma parser_run_nil_chunks (cs : List (List Nat))
    (h : cs.flatten = []) (evs : List (Nat × Nat × List Nat)) :
    BootProtocol_parser_run ([], evs) cs = ([], evs) := by
  induction cs generalizing evs with
  | nil => rfl
  | cons c rest ih =>
    simp only [List.flatten_cons, List.append_eq_nil] at h
    obtain ⟨hc, hrest⟩ := h
    subst hc
    have hstep : BootProtocol_parser_step [] [] = ([], []) := rfl
    simp only [BootProtocol_parser_run, hstep]
    rw [List.append_nil]
    exact ih hrest evs

/-- Feeding the chunks of any partition of a valid frame from any proper
prefix dispatches the frame exactly once and empties the buffer. -/
lemma parser_run_frame (src cmd st : Nat) (payload : List Nat)
    (hL : payload.length < 65536) (hcmd : cmd ∈ cmd_type) :
    ∀ (chunks : List (List Nat)) (done : List Nat) (evs : List (Nat × Nat × List Nat)),
      done ++ chunks.flatten = mkFrame src cmd st payload →
      done.length < (mkFrame src cmd st payload).length →
      BootProtocol_parser_run (done, evs) chunks = ([], evs ++ [(cmd, st, payload)]) := by
  intro chunks
  induction chunks with
  | nil =>
    intro done evs hjoin hlt
    rw [List.flatten_nil, List.append_nil] at hjoin
    rw [hjoin] at hlt
    omega
  | cons c cs ih =>
    intro done evs hjoin hlt
    rw [List.flatten_cons, ← List.append_assoc] at hjoin
    by_cases hfull : cs.flatten = []
    · have heq : done ++ c = mkFrame src cmd st payload := by
        rw [hfull, List.append_nil] at hjoin
        exact hjoin
      have hstep := parser_step_complete src cmd st payload hL hcmd done c heq
      simp only [BootProtocol_parser_run, hstep]
      exact parser_run_nil_chunks cs hfull _
    · have hstep := parser_step_incomplete src cmd st payload hL done c cs.flatten hfull hjoin
      simp only [BootProtocol_parser_run, hstep]
      rw [List.append_nil]
      apply ih (done ++ c) evs hjoin
      have h1 := congrArg List.length hjoin
      rw [mkFrame_length] at h1 ⊢
      simp only [List.length_append] at h1 ⊢
      have hf : 0 < cs.flatten.length := List.length_pos.mpr hfull
      omega

/-- C3: every valid frame (correct preamble, little-endian length equal to
the payload length, command among the five response codes, correct
field-wise-xor CRC), fed to `BootProtocol.parser` from an empty reassembly
buffer in the chunks of any partition, dispatches exactly one callback with
the frame's decoded `(command, status, payload)` and leaves the buffer
empty. -/
theorem boot_reassembly_fragmentation (src cmd st : Nat) (payload : List Nat)
    (chunks : List (List Nat)) (hL : payload.length < 65536) (hcmd : cmd ∈ cmd_type)
    (hjoin : chunks.flatten = mkFrame src cmd st payload) :
    BootProtocol_parser_run ([], []) chunks = ([], [(cmd, st, payload)]) := by
  have h := parser_run_frame src cmd st payload hL hcmd chunks [] []
  rw [List.nil_append] at h
  apply h hjoin
  rw [mkFrame_length]
  simp

/-- Witness for C3: the connect-rsp frame with status 0 and payload
`[1, 2, 3]`, split after 5 bytes, dispatches exactly once. -/
theorem boot_reassembly_fragmentation_witness :
    BootProtocol_parser_run ([], [])
      [(mkFrame 0xB2 0x11 0x00 [1, 2, 3]).take 5, (mkFrame 0xB2 0x11 0x00 [1, 2, 3]).drop 5]
      = ([], [(0x11, 0x00, [1, 2, 3])]) := by
  apply boot_reassembly_fragmentation 0xB2 0x11 0x00 [1, 2, 3]
    [(mkFrame 0xB2 0x11 0x00 [1, 2, 3]).take 5, (mkFrame 0xB2 0x11 0x00 [1, 2, 3]).drop 5]
    (by decide) (by decide)
  simp [List.flatten]

/-- C4 counterexample: a single garbage byte `0x00` concatenated with a
perfectly valid connect-rsp frame and fed to the parser in one chunk is
discarded wholesale — the preamble check sees `[0x00, 0xB0]`, resets the
entire buffer, and the valid frame dispatches nothing — although the same
frame alone dispatches exactly once. -/
theorem boot_desync_counterexample :
    BootProtocol_parser_run ([], []) [[0x00] ++ mkFrame 0xB2 0x11 0x00 []] = ([], [])
    ∧ BootProtocol_parser_run ([], []) [mkFrame 0xB2 0x11 0x00 []]
        = ([], [(0x11, 0x00, [])]) := by
  constructor
  · decide
  · decide

/-- C4 amended: when the garbage (not starting with the preamble) arrives in
its own chunk of at least 8 bytes, the parser discards it on that call, and
a subsequent valid frame, fed in the chunks of any partition, dispatches
exactly once with the correct decoded fields. -/
theorem boot_desync_recovery_amended (garbage : List Nat) (src cmd st : Nat)
    (payload : List Nat) (chunks : List (List Nat))
    (hg8 : 8 ≤ garbage.length) (hgpre : garbage.take 2 ≠ PREAMBLE)
    (hL : payload.length < 65536) (hcmd : cmd ∈ cmd_type)
    (hjoin : chunks.flatten = mkFrame src cmd st payload) :
    BootProtocol_parser_run ([], []) (garbage :: chunks) = ([], [(cmd, st, payload)]) := by
  have hstep : BootProtocol_parser_step [] garbage = ([], []) := by
    simp only [BootProtocol_parser_step, List.nil_append]
    rw [if_pos hg8, if_neg hgpre]
  simp only [BootProtocol_parser_run, hstep]
  rw [List.append_nil]
  have h := parser_run_frame src cmd st payload hL hcmd chunks [] []
  rw [List.nil_append] at h
  apply h hjoin
  rw [mkFrame_length]
  simp

/-- Witness for the amended C4: 8 garbage bytes, then a prepare-rsp frame
with payload `[9]` in one chunk. -/
theorem boot_desync_recovery_amended_witness :
    BootProtocol_parser_run ([], [])
      ([1, 2, 3, 4, 5, 6, 7, 8] :: [mkFrame 0xB2 0x21 0x00 [9]])
      = ([], [(0x21, 0x00, [9])]) := by
  apply boot_desync_recovery_amended [1, 2, 3, 4, 5, 6, 7, 8] 0xB2 0x21 0x00 [9]
    [mkFrame 0xB2 0x21 0x00 [9]] (by decide) (by decide) (by decide) (by decide)
  simp

lemma send_prepare_eq_cons (image_header : List Nat) :
    send_prepare image_header =
      0xB0 :: 0x07 :: (image_header.length &&& 0xFF) :: ((image_header.length >>> 8) &&& 0xFF) ::
        0x2B :: 0x20 :: 0x00 ::
        (BootProtocol_calc_crc8 [image_header.length &&& 0xFF, (image_header.length >>> 8) &&& 0xFF]
          ^^^ BootProtocol_calc_crc8 [0x2B] ^^^ BootProtocol_calc_crc8 [0x20]
          ^^^ BootProtocol_calc_crc8 [0x00] ^^^ BootProtocol_calc_crc8 image_header) ::
        image_header := rfl

lemma send_flash_data_eq_cons (data : List Nat) (size : Nat) :
    send_flash_data data size =
      0xB0 :: 0x07 :: (size &&& 0xFF) :: ((size >>> 8) &&& 0xFF) ::
        0x2B :: 0x30 :: 0x00 ::
        (BootProtocol_calc_crc8 [size &&& 0xFF, (size >>> 8) &&& 0xFF]
          ^^^ BootProtocol_calc_crc8 [0x2B] ^^^ BootProtocol_calc_crc8 [0x30]
          ^^^ BootProtocol_calc_crc8 [0x00] ^^^ BootProtocol_calc_crc8 data) ::
        data := rfl

/-- The frame built by `send_prepare` passes the parser's CRC comparison
whenever the length field decodes to a positive value, i.e. whenever the
header length is not a multiple of 65536. -/
lemma parser_crc_ok_send_prepare (image_header : List Nat)
    (h : image_header.length % 65536 ≠ 0) :
    parser_crc_ok (send_prepare image_header) = true := by
  unfold parser_crc_ok
  rw [send_prepare_eq_cons]
  simp only [parser_crc_calc]
  rw [cons8_drop2take2, cons8_getD4, cons8_getD5, cons8_getD6, cons8_getD7, cons8_drop8,
    pair_getD0, pair_getD1, lenval_builder]
  rw [if_pos (by omega : 0 < image_header.length % 65536)]
  exact beq_self_eq_true _

/-- The frame built by `send_flash_data data (len data)` passes the parser's
CRC comparison whenever the length field decodes to a positive value. -/
lemma parser_crc_ok_send_flash (data : List Nat)
    (h : data.length % 65536 ≠ 0) :
    parser_crc_ok (send_flash_data data data.length) = true := by
  unfold parser_crc_ok
  rw [send_flash_data_eq_cons]
  simp only [parser_crc_calc]
  rw [cons8_drop2take2, cons8_getD4, cons8_getD5, cons8_getD6, cons8_getD7, cons8_drop8,
    pair_getD0, pair_getD1, lenval_builder]
  rw [if_pos (by omega : 0 < data.length % 65536)]
  exact beq_self_eq_true _

/-- `int.from_bytes(data, byteorder='big')`: the whole chunk is decoded as
one big-endian integer. -/
def int_from_bytes_be (data : List Nat) : Nat := data.foldl (fun a b => 256 * a + b) 0

/-- `StpsMessage.__init__` (Scp.py lines 182-215): preamble `A9 65`,
little-endian SCP message length, little-endian device id, reserved zero
byte, and the CRC (xor of the partial CRCs of the SCP message, the two
length bytes and the two device-id bytes), masked to 8 bits.  `get_msg`
returns these 8 header bytes; the caller concatenates the SCP payload
after them. -/
def StpsMessage_msg (scp_msg : List Nat) (dev_id : Nat) : List Nat :=
  let scp_msg_len := scp_msg.length
  let len_low := scp_msg_len &&& 0xFF
  let len_high := (scp_msg_len >>> 8) &&& 0xFF
  let dev_low := dev_id &&& 0xFF
  let dev_high := (dev_id >>> 8) &&& 0xFF
  let crc8 := StpsMessage_calc_crc scp_msg ^^^ StpsMessage_calc_crc [len_low, len_high]
      ^^^ StpsMessage_calc_crc [dev_low, dev_high]
  [0xA9, 0x65, len_low, len_high, dev_low, dev_high, 0x00, crc8 &&& 0xFF]

/-- `StpsParser` mode `Idle`. -/
def StpsIdle : Nat := 0

/-- `StpsParser` mode `Header`. -/
def StpsHeader : Nat := 1

/-- `StpsParser` mode `Payload`. -/
def StpsPayload : Nat := 2

/-- The mutable state of a `StpsParser` object: accumulation buffer `buf`
(a Python list of ints), `last_time` (seconds, `time.time()`), and parse
mode. -/
structure StpsState where
  buf : List Nat
  last_time : ℚ
  mode : Nat
deriving Repr, DecidableEq

/-- Lines 277-280 of `StpsParser.parse`: a non-empty chunk is appended to
the buffer as the single integer `int.from_bytes(data, 'big')` and the
timestamp refreshed. -/
def StpsParser_accumulate (s : StpsState) (data : List Nat) (now : ℚ) : StpsState :=
  if data ≠ [] then { s with buf := s.buf ++ [int_from_bytes_be data], last_time := now }
  else s

/-- `StpsParser.__parse_header` (lines 310-326). -/
def StpsParser_parse_hd (s : StpsState) : StpsState × Option (List Nat) :=
  if 8 ≤ s.buf.length then
    if s.buf.getD 0 0 = 0xA9 ∧ s.buf.getD 1 0 = 0x65 then
      ({ s with mode := StpsPayload }, none)
    else
      ({ s with buf := [], mode := StpsIdle }, none)
  else (s, none)

/-- `StpsParser.__parse_payload` (lines 334-359): once
`payload_length + 8` bytes are buffered, slice the payload, recompute the
xor-combined CRC over payload, length bytes and device-id bytes, reset the
buffer and mode, and return the payload exactly when the CRC matches.  An
incomplete buffer falls through with no state change (Python returns None
implicitly). -/
def StpsParser_parse_pl (s : StpsState) : StpsState × Option (List Nat) :=
  let payload_length := s.buf.getD 2 0 + (s.buf.getD 3 0 <<< 8)
  if payload_length + 8 ≤ s.buf.length then
    let payload := (s.buf.drop 8).take payload_length
    let devid := s.buf.getD 4 0 + (s.buf.getD 5 0 <<< 8)
    let crc := s.buf.getD 7 0
    let crc_calc := StpsParser_calc_crc8 payload
        ^^^ StpsParser_calc_crc8 [payload_length &&& 0xFF, (payload_length >>> 8) &&& 0xFF]
        ^^^ StpsParser_calc_crc8 [devid &&& 0xFF, (devid >>> 8) &&& 0xFF]
    if crc_calc = crc then (⟨[], s.last_time, StpsIdle⟩, some payload)
    else (⟨[], s.last_time, StpsIdle⟩, none)
  else (s, none)

/-- The `if/elif/elif` mode dispatch of `StpsParser.parse` (lines 282-290):
`Idle` only arms `Header` without consuming the buffer; `Header` and
`Payload` run their sub-parsers. -/
def StpsParser_mode_machine (s1 : StpsState) : StpsState × Option (List Nat) :=
  if s1.mode = StpsIdle then ({ s1 with mode := StpsHeader }, (none : Option (List Nat)))
  else if s1.mode = StpsHeader then StpsParser_parse_hd s1
  else StpsParser_parse_pl s1

/-- `StpsParser.parse` (lines 275-302): append the chunk (as one big-endian
integer) and refresh the timestamp when the chunk is non-empty; run the
mode machine; afterwards, if still mid-parse and more than 100 ms passed
since `last_time`, purge the buffer, reset to `Idle` and return None.
Both `time.time()` reads of one call are modeled as the same instant
`now`. -/
def StpsParser_parse (s : StpsState) (data : List Nat) (now : ℚ) :
    StpsState × Option (List Nat) :=
  let r := StpsParser_mode_machine (StpsParser_accumulate s data now)
  if r.1.mode ≠ StpsIdle ∧ now - r.1.last_time > 1 / 10 then
    ({ r.1 with mode := StpsIdle, buf := [] }, none)
  else r

/-- Feeding a byte list one byte per `parse` call, byte `j` arriving at
time `τ (i + j)`; collects the per-call results. -/
def StpsParser_feed : StpsState → List Nat → (Nat → ℚ) → Nat →
    StpsState × List (Option (List Nat))
  | s, [], _, _ => (s, [])
  | s, b :: bs, τ, i =>
      let r := StpsParser_parse s [b] (τ i)
      let r2 := StpsParser_feed r.1 bs τ (i + 1)
      (r2.1, r.2 :: r2.2)

lemma int_from_bytes_be_single (b : Nat) : int_from_bytes_be [b] = b := by
  simp [int_from_bytes_be]

lemma no_timeout_now (t : ℚ) : ¬(t - t > 1 / 10) := by norm_num

/-- A data-carrying `parse` call is the mode machine on the extended buffer
when the machine's result does not trip the timeout check — which it never
does, because the timestamp was just refreshed to `now`. -/
lemma parse_of_machine (s : StpsState) (b : Nat) (t : ℚ)
    (r : StpsState × Option (List Nat))
    (hm : StpsParser_mode_machine ⟨s.buf ++ [b], t, s.mode⟩ = r)
    (hnt : ¬(r.1.mode ≠ StpsIdle ∧ t - r.1.last_time > 1 / 10)) :
    StpsParser_parse s [b] t = r := by
  have hacc : StpsParser_accumulate s [b] t = ⟨s.buf ++ [b], t, s.mode⟩ := by
    simp [StpsParser_accumulate, int_from_bytes_be_single]
  simp only [StpsParser_parse, hacc, hm]
  rw [if_neg hnt]

lemma parse_idle (B : List Nat) (t0 : ℚ) (b : Nat) (t : ℚ) :
    StpsParser_parse ⟨B, t0, StpsIdle⟩ [b] t = (⟨B ++ [b], t, StpsHeader⟩, none) := by
  apply parse_of_machine
  · simp [StpsParser_mode_machine, StpsIdle, StpsHeader]
  · simp only [StpsIdle, StpsHeader]
    intro h
    exact absurd h.2 (no_timeout_now t)

lemma mode_machine_header (s1 : StpsState) (h : s1.mode = StpsHeader) :
    StpsParser_mode_machine s1 = StpsParser_parse_hd s1 := by
  simp [StpsParser_mode_machine, h, StpsIdle, StpsHeader]

lemma mode_machine_payload (s1 : StpsState) (h : s1.mode = StpsPayload) :
    StpsParser_mode_machine s1 = StpsParser_parse_pl s1 := by
  simp [StpsParser_mode_machine, h, StpsIdle, StpsHeader, StpsPayload]

lemma parse_header_short (B : List Nat) (t0 : ℚ) (b : Nat) (t : ℚ)
    (hlen : B.length + 1 < 8) :
    StpsParser_parse ⟨B, t0, StpsHeader⟩ [b] t = (⟨B ++ [b], t, StpsHeader⟩, none) := by
  apply parse_of_machine
  · rw [mode_machine_header _ rfl]
    simp only [StpsParser_parse_hd]
    rw [if_neg (by
      simp only [List.length_append, List.length_cons, List.length_nil]
      omega : ¬(8 ≤ (B ++ [b]).length))]
  · intro h
    exact absurd h.2 (no_timeout_now t)

lemma parse_header_complete (B : List Nat) (t0 : ℚ) (b : Nat) (t : ℚ)
    (hlen : 8 ≤ (B ++ [b]).length)
    (hpre : (B ++ [b]).getD 0 0 = 0xA9 ∧ (B ++ [b]).getD 1 0 = 0x65) :
    StpsParser_parse ⟨B, t0, StpsHeader⟩ [b] t = (⟨B ++ [b], t, StpsPayload⟩, none) := by
  apply parse_of_machine
  · rw [mode_machine_header _ rfl]
    simp only [StpsParser_parse_hd]
    rw [if_pos hlen, if_pos hpre]
  · intro h
    exact absurd h.2 (no_timeout_now t)

lemma cons8_getD0 (b0 b1 b2 b3 b4 b5 b6 b7 : Nat) (l : List Nat) :
    (b0 :: b1 :: b2 :: b3 :: b4 :: b5 :: b6 :: b7 :: l).getD 0 0 = b0 := rfl

lemma cons8_getD1 (b0 b1 b2 b3 b4 b5 b6 b7 : Nat) (l : List Nat) :
    (b0 :: b1 :: b2 :: b3 :: b4 :: b5 :: b6 :: b7 :: l).getD 1 0 = b1 := rfl

lemma cons8_getD2 (b0 b1 b2 b3 b4 b5 b6 b7 : Nat) (l : List Nat) :
    (b0 :: b1 :: b2 :: b3 :: b4 :: b5 :: b6 :: b7 :: l).getD 2 0 = b2 := rfl

lemma cons8_getD3 (b0 b1 b2 b3 b4 b5 b6 b7 : Nat) (l : List Nat) :
    (b0 :: b1 :: b2 :: b3 :: b4 :: b5 :: b6 :: b7 :: l).getD 3 0 = b3 := rfl

lemma parse_payload_more8 (h0 h1 h2 h3 h4 h5 h6 h7 : Nat) (l : List Nat)
    (t0 : ℚ) (b : Nat) (t : ℚ)
    (hlen : 9 + l.length < (h2 + (h3 <<< 8)) + 8) :
    StpsParser_parse ⟨h0 :: h1 :: h2 :: h3 :: h4 :: h5 :: h6 :: h7 :: l, t0, StpsPayload⟩ [b] t
      = (⟨h0 :: h1 :: h2 :: h3 :: h4 :: h5 :: h6 :: h7 :: (l ++ [b]), t, StpsPayload⟩, none) := by
  apply parse_of_machine
  · have hb : (h0 :: h1 :: h2 :: h3 :: h4 :: h5 :: h6 :: h7 :: l) ++ [b]
        = h0 :: h1 :: h2 :: h3 :: h4 :: h5 :: h6 :: h7 :: (l ++ [b]) := by simp
    rw [hb, mode_machine_payload _ rfl]
    simp only [StpsParser_parse_pl]
    rw [cons8_getD2, cons8_getD3]
    rw [if_neg (by
      rw [cons8_length, List.length_append, List.length_cons, List.length_nil]
      omega : ¬((h2 + (h3 <<< 8)) + 8 ≤
        (h0 :: h1 :: h2 :: h3 :: h4 :: h5 :: h6 :: h7 :: (l ++ [b])).length))]
  · intro h
    exact absurd h.2 (no_timeout_now t)

lemma parse_payload_done8 (h0 h1 h2 h3 h4 h5 h6 h7 : Nat) (l : List Nat)
    (t0 : ℚ) (b : Nat) (t : ℚ)
    (hlen : (h2 + (h3 <<< 8)) + 8 ≤ 9 + l.length)
    (hcrc : StpsParser_calc_crc8 ((l ++ [b]).take (h2 + (h3 <<< 8)))
        ^^^ StpsParser_calc_crc8 [(h2 + (h3 <<< 8)) &&& 0xFF, ((h2 + (h3 <<< 8)) >>> 8) &&& 0xFF]
        ^^^ StpsParser_calc_crc8 [(h4 + (h5 <<< 8)) &&& 0xFF, ((h4 + (h5 <<< 8)) >>> 8) &&& 0xFF]
        = h7) :
    StpsParser_parse ⟨h0 :: h1 :: h2 :: h3 :: h4 :: h5 :: h6 :: h7 :: l, t0, StpsPayload⟩ [b] t
      = (⟨[], t, StpsIdle⟩, some ((l ++ [b]).take (h2 + (h3 <<< 8)))) := by
  apply parse_of_machine
  · have hb : (h0 :: h1 :: h2 :: h3 :: h4 :: h5 :: h6 :: h7 :: l) ++ [b]
        = h0 :: h1 :: h2 :: h3 :: h4 :: h5 :: h6 :: h7 :: (l ++ [b]) := by simp
    rw [hb, mode_machine_payload _ rfl]
    simp only [StpsParser_parse_pl]
    rw [cons8_getD2, cons8_getD3, cons8_getD4, cons8_getD5, cons8_getD7, cons8_drop8]
    rw [if_pos (by
      rw [cons8_length, List.length_append, List.length_cons, List.length_nil]
      omega : (h2 + (h3 <<< 8)) + 8 ≤
        (h0 :: h1 :: h2 :: h3 :: h4 :: h5 :: h6 :: h7 :: (l ++ [b])).length)]
    rw [if_pos hcrc]
  · intro h
    exact absurd (h.1) (by simp)

/-- Splitting a byte-at-a-time feed at a list boundary. -/
lemma StpsParser_feed_append (s : StpsState) (xs ys : List Nat) (τ : Nat → ℚ) (i : Nat) :
    StpsParser_feed s (xs ++ ys) τ i =
      ((StpsParser_feed (StpsParser_feed s xs τ i).1 ys τ (i + xs.length)).1,
        (StpsParser_feed s xs τ i).2 ++
          (StpsParser_feed (StpsParser_feed s xs τ i).1 ys τ (i + xs.length)).2) := by
  induction xs generalizing s i with
  | nil => simp [StpsParser_feed]
  | cons x xs ih =>
    simp only [List.cons_append, StpsParser_feed]
    simp only [List.append_eq]
    rw [ih]
    have hidx : i + 1 + xs.length = i + (xs.length + 1) := by omega
    rw [hidx]
    simp [List.length_cons]

/-- Feeding the 8 header bytes of an STPS frame one byte per call from a
fresh parser: the first call only arms `Header`, the eighth sees the valid
preamble and arms `Payload`; every call returns None. -/
lemma stps_feed_header_phase (c2 c3 c4 c5 c7 : Nat) (t0 : ℚ) (τ : Nat → ℚ) (i0 : Nat) :
    StpsParser_feed ⟨[], t0, StpsIdle⟩ [0xA9, 0x65, c2, c3, c4, c5, 0x00, c7] τ i0
      = (⟨[0xA9, 0x65, c2, c3, c4, c5, 0x00, c7], τ (i0 + 1 + 1 + 1 + 1 + 1 + 1 + 1),
          StpsPayload⟩, List.replicate 8 none) := by
  have e1 := parse_idle [] t0 0xA9 (τ i0)
  have e2 := parse_header_short [0xA9] (τ i0) 0x65 (τ (i0 + 1)) (by simp)
  have e3 := parse_header_short [0xA9, 0x65] (τ (i0 + 1)) c2 (τ (i0 + 1 + 1)) (by simp)
  have e4 := parse_header_short [0xA9, 0x65, c2] (τ (i0 + 1 + 1)) c3
    (τ (i0 + 1 + 1 + 1)) (by simp)
  have e5 := parse_header_short [0xA9, 0x65, c2, c3] (τ (i0 + 1 + 1 + 1)) c4
    (τ (i0 + 1 + 1 + 1 + 1)) (by simp)
  have e6 := parse_header_short [0xA9, 0x65, c2, c3, c4] (τ (i0 + 1 + 1 + 1 + 1)) c5
    (τ (i0 + 1 + 1 + 1 + 1 + 1)) (by simp)
  have e7 := parse_header_short [0xA9, 0x65, c2, c3, c4, c5] (τ (i0 + 1 + 1 + 1 + 1 + 1)) 0x00
    (τ (i0 + 1 + 1 + 1 + 1 + 1 + 1)) (by simp)
  have e8 := parse_header_complete [0xA9, 0x65, c2, c3, c4, c5, 0x00]
    (τ (i0 + 1 + 1 + 1 + 1 + 1 + 1)) c7 (τ (i0 + 1 + 1 + 1 + 1 + 1 + 1 + 1))
    (by simp) (by constructor <;> rfl)
  simp only [StpsParser_feed, e1, List.nil_append, List.cons_append, e2, e3, e4, e5, e6,
    e7, e8]
  rfl

lemma StpsParser_calc_crc8_lt (data : List Nat) : StpsParser_calc_crc8 data < 256 := by
  unfold StpsParser_calc_crc8
  rw [and255_eq_mod]
  exact Nat.mod_lt _ (by norm_num)

/-- The CRC byte the sender writes (unmasked engine, masked once at the
end) equals the xor of the three masked partial CRCs the receiver
computes. -/
lemma stps_crc_byte_eq (scp lenB devB : List Nat) :
    (StpsMessage_calc_crc scp ^^^ StpsMessage_calc_crc lenB ^^^ StpsMessage_calc_crc devB)
        &&& 0xFF
      = StpsParser_calc_crc8 scp ^^^ StpsParser_calc_crc8 lenB
        ^^^ StpsParser_calc_crc8 devB := by
  rw [StpsMessage_calc_crc_eq, StpsMessage_calc_crc_eq, StpsMessage_calc_crc_eq,
    and255_eq_mod]
  apply Nat.mod_eq_of_lt
  have h256 : (256 : Nat) = 2 ^ 8 := by norm_num
  rw [h256]
  apply Nat.xor_lt_two_pow
  · apply Nat.xor_lt_two_pow
    · rw [← h256]; exact StpsParser_calc_crc8_lt scp
    · rw [← h256]; exact StpsParser_calc_crc8_lt lenB
  · rw [← h256]; exact StpsParser_calc_crc8_lt devB

/-- Decoding `low + (high << 8)` of the two little-endian bytes the sender
wrote recovers the value, for values below 65536. -/
lemma lenbytes_roundtrip (v : Nat) (h : v < 65536) :
    (v &&& 0xFF) + (((v >>> 8) &&& 0xFF) <<< 8) = v := by
  rw [and255_eq_mod, and255_eq_mod, Nat.shiftRight_eq_div_pow, Nat.shiftLeft_eq]
  norm_num
  omega

lemma StpsMessage_msg_length (scp_msg : List Nat) (dev_id : Nat) :
    (StpsMessage_msg scp_msg dev_id).length = 8 := rfl

/-- Once the 8 frame bytes are buffered and the parser is in `Payload`
mode, feeding the payload bytes one per call returns None until the last
byte, whose call returns exactly the original SCP payload and resets the
parser. -/
lemma stps_feed_payload_phase (scp : List Nat) (dev : Nat)
    (hL : scp.length < 65536) (hdev : dev < 65536) :
    ∀ (rest done : List Nat) (τ : Nat → ℚ) (i : Nat) (t : ℚ),
      done ++ rest = scp → rest ≠ [] →
      StpsParser_feed ⟨0xA9 :: 0x65 :: (scp.length &&& 0xFF) :: ((scp.length >>> 8) &&& 0xFF)
          :: (dev &&& 0xFF) :: ((dev >>> 8) &&& 0xFF) :: 0x00 ::
          ((StpsMessage_calc_crc scp
            ^^^ StpsMessage_calc_crc [scp.length &&& 0xFF, (scp.length >>> 8) &&& 0xFF]
            ^^^ StpsMessage_calc_crc [dev &&& 0xFF, (dev >>> 8) &&& 0xFF]) &&& 0xFF) :: done,
          t, StpsPayload⟩ rest τ i
        = (⟨[], τ (i + (rest.length - 1)), StpsIdle⟩,
           List.replicate (rest.length - 1) none ++ [some scp]) := by
  intro rest
  induction rest with
  | nil => intro done τ i t hsplit hne; exact absurd rfl hne
  | cons b rest2 ih =>
    intro done τ i t hsplit hne
    have hlenval : (scp.length &&& 0xFF) + (((scp.length >>> 8) &&& 0xFF) <<< 8)
        = scp.length := lenbytes_roundtrip scp.length hL
    have hdone : done.length + (rest2.length + 1) = scp.length := by
      have h1 := congrArg List.length hsplit
      simp only [List.length_append, List.length_cons] at h1
      omega
    by_cases hr2 : rest2 = []
    · subst hr2
      have hb : done ++ [b] = scp := hsplit
      have hd1 : done.length + 1 = scp.length := by
        have h1 := congrArg List.length hb
        simpa using h1
      have hstep := parse_payload_done8 0xA9 0x65 (scp.length &&& 0xFF)
        ((scp.length >>> 8) &&& 0xFF) (dev &&& 0xFF) ((dev >>> 8) &&& 0xFF) 0x00
        ((StpsMessage_calc_crc scp
          ^^^ StpsMessage_calc_crc [scp.length &&& 0xFF, (scp.length >>> 8) &&& 0xFF]
          ^^^ StpsMessage_calc_crc [dev &&& 0xFF, (dev >>> 8) &&& 0xFF]) &&& 0xFF)
        done t b (τ i)
        (by rw [hlenval]; omega)
        (by
          rw [hlenval, lenbytes_roundtrip dev hdev, hb]
          rw [List.take_length]
          exact (stps_crc_byte_eq scp [scp.length &&& 0xFF, (scp.length >>> 8) &&& 0xFF]
            [dev &&& 0xFF, (dev >>> 8) &&& 0xFF]).symm)
      simp only [StpsParser_feed, hstep]
      rw [hlenval, hb, List.take_length]
      rfl
    · have hstep := parse_payload_more8 0xA9 0x65 (scp.length &&& 0xFF)
        ((scp.length >>> 8) &&& 0xFF) (dev &&& 0xFF) ((dev >>> 8) &&& 0xFF) 0x00
        ((StpsMessage_calc_crc scp
          ^^^ StpsMessage_calc_crc [scp.length &&& 0xFF, (scp.length >>> 8) &&& 0xFF]
          ^^^ StpsMessage_calc_crc [dev &&& 0xFF, (dev >>> 8) &&& 0xFF]) &&& 0xFF)
        done t b (τ i)
        (by
          rw [hlenval]
          have hr2len : 0 < rest2.length := List.length_pos.mpr hr2
          omega)
      simp only [StpsParser_feed, hstep]
      have hih := ih (done ++ [b]) τ (i + 1) (τ i)
        (by rw [List.append_assoc]; exact hsplit) hr2
      rw [hih]
      obtain ⟨m, hm⟩ : ∃ m, rest2.length = m + 1 :=
        ⟨rest2.length - 1, by
          have hr2len : 0 < rest2.length := List.length_pos.mpr hr2
          omega⟩
      have hidx : i + 1 + (rest2.length - 1) = i + ((b :: rest2).length - 1) := by
        simp only [List.length_cons]
        omega
      rw [hidx]
      simp only [List.length_cons, hm]
      have hrep : (none : Option (List Nat)) :: (List.replicate (m + 1 - 1) none
          ++ [some scp]) = List.replicate (m + 1) none ++ [some scp] := by
        simp [List.replicate_succ]
      rw [show m + 1 + 1 - 1 = m + 1 from by omega]
      rw [show m + 1 - 1 = m from by omega] at hrep ⊢
      rw [← hrep]

/-- An STPS frame built by `StpsMessage` followed by its SCP payload, fed
byte-by-byte from a fresh parser state, returns None on every call but the
last, which returns exactly the original payload; the parser ends reset. -/
lemma stps_roundtrip_from_idle (scp : List Nat) (dev : Nat) (τ : Nat → ℚ) (i0 : Nat)
    (t0 : ℚ) (hL0 : 0 < scp.length) (hL : scp.length < 65536) (hdev : dev < 65536) :
    StpsParser_feed ⟨[], t0, StpsIdle⟩ (StpsMessage_msg scp dev ++ scp) τ i0
      = (⟨[], τ (i0 + 7 + scp.length), StpsIdle⟩,
         List.replicate (7 + scp.length) none ++ [some scp]) := by
  rw [StpsParser_feed_append]
  have hmsg : StpsMessage_msg scp dev = [0xA9, 0x65, scp.length &&& 0xFF,
      (scp.length >>> 8) &&& 0xFF, dev &&& 0xFF, (dev >>> 8) &&& 0xFF, 0x00,
      (StpsMessage_calc_crc scp
        ^^^ StpsMessage_calc_crc [scp.length &&& 0xFF, (scp.length >>> 8) &&& 0xFF]
        ^^^ StpsMessage_calc_crc [dev &&& 0xFF, (dev >>> 8) &&& 0xFF]) &&& 0xFF] := rfl
  rw [hmsg]
  rw [stps_feed_header_phase]
  rw [show ([0xA9, 0x65, scp.length &&& 0xFF, (scp.length >>> 8) &&& 0xFF, dev &&& 0xFF,
      (dev >>> 8) &&& 0xFF, 0x00,
      (StpsMessage_calc_crc scp
        ^^^ StpsMessage_calc_crc [scp.length &&& 0xFF, (scp.length >>> 8) &&& 0xFF]
        ^^^ StpsMessage_calc_crc [dev &&& 0xFF, (dev >>> 8) &&& 0xFF]) &&& 0xFF]
      : List Nat).length = 8 from rfl]
  have hph := stps_feed_payload_phase scp dev hL hdev scp [] τ (i0 + 8)
    (τ (i0 + 1 + 1 + 1 + 1 + 1 + 1 + 1)) (by simp) (by
      intro hs
      rw [hs] at hL0
      simp at hL0)
  simp only [List.nil_append] at hph
  rw [hph]
  have ht : i0 + 8 + (scp.length - 1) = i0 + 7 + scp.length := by omega
  rw [ht]
  have hreps : List.replicate 8 (none : Option (List Nat))
      ++ (List.replicate (scp.length - 1) none ++ [some scp])
      = List.replicate (7 + scp.length) none ++ [some scp] := by
    rw [← List.append_assoc, ← List.replicate_add]
    have h8 : 8 + (scp.length - 1) = 7 + scp.length := by omega
    rw [h8]
  rw [hreps]

/-- C1 counterexample: `send_flash_data` with an empty payload xors the
partial CRC of the empty list (the seed `0xB6`) into the frame's CRC byte,
but the receive side skips the payload partial when the decoded length is
zero, so the emitted frame FAILS the receive-side CRC check; and the STPS
frame of an empty SCP payload, fed one byte per call, returns None on every
one of its 8 calls — the empty payload is never returned. -/
theorem crc_roundtrip_counterexample :
    parser_crc_ok (send_flash_data [] 0) = false
    ∧ (StpsParser_feed ⟨[], 0, StpsIdle⟩ (StpsMessage_msg [] 2 ++ [])
        (fun _ => 0) 0).2 = List.replicate 8 none := by
  constructor
  · decide
  · have hmsg : StpsMessage_msg [] 2 ++ ([] : List Nat)
        = [0xA9, 0x65, 0x00, 0x00, 0x02, 0x00, 0x00, 30] := by decide
    rw [hmsg, stps_feed_header_phase]

/-- C1 amended: every frame emitted by `send_connect`, `send_exit` and
`send_info` passes the receive-side CRC check; the frames of `send_prepare`
and `send_flash_data(data, len(data))` pass it whenever the payload length
is not a multiple of 65536 (in particular it fails for empty payloads); and
for every non-empty SCP payload shorter than 65536 bytes and every 16-bit
device id, the STPS frame followed by the payload, fed one byte per call
with no inter-byte gap above 100 ms, returns None on every call but the
last, which returns exactly the original payload. -/
theorem crc_roundtrip_amended :
    parser_crc_ok send_connect = true
    ∧ parser_crc_ok send_exit_frame = true
    ∧ parser_crc_ok send_info_frame = true
    ∧ (∀ image_header : List Nat, image_header.length % 65536 ≠ 0 →
        parser_crc_ok (send_prepare image_header) = true)
    ∧ (∀ data : List Nat, data.length % 65536 ≠ 0 →
        parser_crc_ok (send_flash_data data data.length) = true)
    ∧ (∀ (scp : List Nat) (dev : Nat) (τ : Nat → ℚ) (t0 : ℚ),
        0 < scp.length → scp.length < 65536 → dev < 65536 →
        (∀ j, τ (j + 1) - τ j ≤ 1 / 10) →
        (StpsParser_feed ⟨[], t0, StpsIdle⟩ (StpsMessage_msg scp dev ++ scp) τ 0).2
          = List.replicate (7 + scp.length) none ++ [some scp]) := by
  refine ⟨by decide, by decide, by decide, parser_crc_ok_send_prepare,
    parser_crc_ok_send_flash, ?_⟩
  intro scp dev τ t0 hL0 hL hdev _
  rw [stps_roundtrip_from_idle scp dev τ 0 t0 hL0 hL hdev]

/-- Witness for the amended C1: concrete instances of the prepare, flash
and STPS round-trip clauses. -/
theorem crc_roundtrip_amended_witness :
    parser_crc_ok (send_prepare [1, 2, 3]) = true
    ∧ parser_crc_ok (send_flash_data [4, 5] 2) = true
    ∧ (StpsParser_feed ⟨[], 0, StpsIdle⟩ (StpsMessage_msg [0x41] 2 ++ [0x41])
        (fun _ => 0) 0).2 = List.replicate 8 none ++ [some [0x41]] := by
  refine ⟨crc_roundtrip_amended.2.2.2.1 [1, 2, 3] (by decide), ?_, ?_⟩
  · have h := crc_roundtrip_amended.2.2.2.2.1 [4, 5] (by decide)
    exact h
  · have h := crc_roundtrip_amended.2.2.2.2.2 [0x41] 2 (fun _ => 0) 0 (by decide)
      (by decide) (by decide) (fun j => by norm_num)
    exact h

/-- C7 counterexample: with a stale byte `0xA9` buffered (mode `Header`,
last byte at t = 0), a fresh, perfectly valid STPS frame arriving one byte
per call at t = 1 — more than 100 ms later — is NOT parsed: the first fresh
call appends to the stale buffer (the timestamp is refreshed before the
timeout check, so no purge happens) and every one of the 9 calls returns
None, while the very same byte sequence fed to a fresh parser returns the
payload.  The stale partial is concatenated, not purged. -/
lemma parse_header_bad (B : List Nat) (t0 : ℚ) (b : Nat) (t : ℚ)
    (hlen : 8 ≤ (B ++ [b]).length)
    (hpre : ¬((B ++ [b]).getD 0 0 = 0xA9 ∧ (B ++ [b]).getD 1 0 = 0x65)) :
    StpsParser_parse ⟨B, t0, StpsHeader⟩ [b] t = (⟨[], t, StpsIdle⟩, none) := by
  apply parse_of_machine
  · rw [mode_machine_header _ rfl]
    simp only [StpsParser_parse_hd]
    rw [if_pos hlen, if_neg hpre]
  · intro h
    exact absurd rfl h.1

theorem stps_timeout_counterexample :
    (StpsParser_parse ⟨[], 0, StpsIdle⟩ [0xA9] 0).1.buf = [0xA9]
    ∧ (StpsParser_parse ⟨[], 0, StpsIdle⟩ [0xA9] 0).1.mode = StpsHeader
    ∧ (StpsParser_feed (StpsParser_parse ⟨[], 0, StpsIdle⟩ [0xA9] 0).1
        (StpsMessage_msg [0x41] 2 ++ [0x41]) (fun _ => 1) 0).2 = List.replicate 9 none
    ∧ (StpsParser_feed ⟨[], 0, StpsIdle⟩ (StpsMessage_msg [0x41] 2 ++ [0x41])
        (fun _ => 1) 0).2 = List.replicate 8 none ++ [some [0x41]] := by
  have hstale := parse_idle [] 0 0xA9 0
  have hmsg : StpsMessage_msg [0x41] 2 ++ [0x41]
      = [0xA9, 0x65, 0x01, 0x00, 0x02, 0x00, 0x00, 115, 0x41] := by decide
  have e1 := parse_header_short [0xA9] 0 0xA9 1 (by simp)
  have e2 := parse_header_short [0xA9, 0xA9] 1 0x65 1 (by simp)
  have e3 := parse_header_short [0xA9, 0xA9, 0x65] 1 0x01 1 (by simp)
  have e4 := parse_header_short [0xA9, 0xA9, 0x65, 0x01] 1 0x00 1 (by simp)
  have e5 := parse_header_short [0xA9, 0xA9, 0x65, 0x01, 0x00] 1 0x02 1 (by simp)
  have e6 := parse_header_short [0xA9, 0xA9, 0x65, 0x01, 0x00, 0x02] 1 0x00 1 (by simp)
  have e7 := parse_header_bad [0xA9, 0xA9, 0x65, 0x01, 0x00, 0x02, 0x00] 1 0x00 1
    (by simp) (by decide)
  have e8 := parse_idle [] 1 115 1
  have e9 := parse_header_short [115] 1 0x41 1 (by simp)
  refine ⟨by rw [hstale]; rfl, by rw [hstale], ?_, ?_⟩
  · rw [hstale, hmsg]
    simp only [List.nil_append, StpsParser_feed, List.cons_append, e1, e2, e3, e4, e5,
      e6, e7, e8, e9]
    rfl
  · have h4 := stps_roundtrip_from_idle [0x41] 2 (fun _ => 1) 0 0 (by decide) (by decide)
      (by decide)
    rw [h4]
    rfl

lemma mode_machine_keeps_last_time (s1 : StpsState) :
    (StpsParser_mode_machine s1).1.last_time = s1.last_time := by
  simp only [StpsParser_mode_machine, StpsParser_parse_hd, StpsParser_parse_pl]
  split_ifs <;> rfl

lemma mode_machine_idle_buf (s1 : StpsState) (h : s1.mode ≠ StpsIdle) :
    (StpsParser_mode_machine s1).1.mode = StpsIdle →
    (StpsParser_mode_machine s1).1.buf = [] := by
  simp only [StpsParser_mode_machine, StpsParser_parse_hd, StpsParser_parse_pl]
  rw [if_neg h]
  split_ifs <;> intro hm <;> first
    | rfl
    | exact absurd hm h
    | simp [StpsHeader, StpsPayload, StpsIdle] at hm

/-- C7 amended: the stale buffer is purged only by a `parse` call that
carries NO data (a poll) more than 100 ms after the last byte: such a call
ends with an empty buffer and mode `Idle`, and a fresh valid frame fed
byte-by-byte afterwards parses into exactly its payload.  (A call that
carries data refreshes the timestamp before the timeout check, so it never
purges — see the counterexample.) -/
theorem stps_timeout_purge_amended (s : StpsState) (now : ℚ)
    (hmid : s.mode ≠ StpsIdle) (hgap : now - s.last_time > 1 / 10) :
    (StpsParser_parse s [] now).1.buf = []
    ∧ (StpsParser_parse s [] now).1.mode = StpsIdle
    ∧ ∀ (scp : List Nat) (dev : Nat) (τ : Nat → ℚ) (i0 : Nat),
        0 < scp.length → scp.length < 65536 → dev < 65536 →
        (StpsParser_feed ⟨[], (StpsParser_parse s [] now).1.last_time, StpsIdle⟩
          (StpsMessage_msg scp dev ++ scp) τ i0).2
          = List.replicate (7 + scp.length) none ++ [some scp] := by
  have hacc : StpsParser_accumulate s [] now = s := by
    simp [StpsParser_accumulate]
  have hmain : (StpsParser_parse s [] now).1.buf = []
      ∧ (StpsParser_parse s [] now).1.mode = StpsIdle := by
    simp only [StpsParser_parse, hacc]
    by_cases hc : (StpsParser_mode_machine s).1.mode = StpsIdle
    · rw [if_neg (by
        intro hcontra
        exact hcontra.1 hc)]
      exact ⟨mode_machine_idle_buf s hmid hc, hc⟩
    · rw [if_pos (by
        refine ⟨hc, ?_⟩
        rw [mode_machine_keeps_last_time]
        exact hgap)]
      exact ⟨rfl, rfl⟩
  refine ⟨hmain.1, hmain.2, ?_⟩
  intro scp dev τ i0 hL0 hL hdev
  rw [stps_roundtrip_from_idle scp dev τ i0 _ hL0 hL hdev]

/-- Witness for the amended C7: a poll at t = 1 purges a parser holding a
stale `0xA9` from t = 0, and a fresh one-byte-payload frame then parses. -/
theorem stps_timeout_purge_amended_witness :
    (StpsParser_parse ⟨[0xA9], 0, StpsHeader⟩ [] 1).1.buf = []
    ∧ (StpsParser_parse ⟨[0xA9], 0, StpsHeader⟩ [] 1).1.mode = StpsIdle
    ∧ (StpsParser_feed ⟨[], (StpsParser_parse ⟨[0xA9], 0, StpsHeader⟩ [] 1).1.last_time,
        StpsIdle⟩ (StpsMessage_msg [0x41] 2 ++ [0x41]) (fun _ => 2) 0).2
        = List.replicate 8 none ++ [some [0x41]] := by
  have h := stps_timeout_purge_amended ⟨[0xA9], 0, StpsHeader⟩ 1 (by decide) (by norm_num)
  exact ⟨h.1, h.2.1, h.2.2 [0x41] 2 (fun _ => 2) 0 (by decide) (by decide) (by decide)⟩

/-- C10: a `parse` call on a chunk of two or more bytes appends the chunk
to the accumulation buffer as ONE integer — the chunk's big-endian value —
not as its individual bytes (here from the `Idle` state, where no further
buffer manipulation happens in the same call). -/
theorem stps_chunk_single_integer (s : StpsState) (data : List Nat) (now : ℚ)
    (hmode : s.mode = StpsIdle) (hlen : 2 ≤ data.length) :
    (StpsParser_parse s data now).1.buf = s.buf ++ [int_from_bytes_be data]
    ∧ (StpsParser_parse s data now).1.buf ≠ s.buf ++ data := by
  have hne : data ≠ [] := by
    intro h
    rw [h] at hlen
    simp at hlen
  have hacc : StpsParser_accumulate s data now
      = ⟨s.buf ++ [int_from_bytes_be data], now, s.mode⟩ := by
    simp [StpsParser_accumulate, hne]
  have hbuf : (StpsParser_parse s data now).1.buf = s.buf ++ [int_from_bytes_be data] := by
    simp only [StpsParser_parse, hacc, StpsParser_mode_machine, hmode, if_true]
    rw [if_neg (by
      intro hcontra
      exact absurd hcontra.2 (no_timeout_now now))]
  refine ⟨hbuf, ?_⟩
  rw [hbuf]
  intro heq
  have hlen2 := congrArg List.length heq
  simp only [List.length_append, List.length_cons, List.length_nil] at hlen2
  omega

/-- Witness for C10: the two-byte chunk `[1, 2]` is buffered as the single
integer 258. -/
theorem stps_chunk_single_integer_witness :
    (StpsParser_parse ⟨[], 0, StpsIdle⟩ [1, 2] 0).1.buf = [] ++ [int_from_bytes_be [1, 2]]
    ∧ (StpsParser_parse ⟨[], 0, StpsIdle⟩ [1, 2] 0).1.buf ≠ [] ++ [1, 2] :=
  stps_chunk_single_integer ⟨[], 0, StpsIdle⟩ [1, 2] 0 rfl (by norm_num)

/-- `BinFile.read(addr, size)` through `FwImage.read`: an absolute-offset
random read on the file's byte content (short reads past the end return
what is left). -/
def FwImage_read (file : List Nat) (addr size : Nat) : List Nat :=
  (file.drop addr).take size

/-- `int.from_bytes(data, byteorder="little")`. -/
def int_from_bytes_le (bs : List Nat) : Nat := bs.foldr (fun b acc => b + 256 * acc) 0

/-- `FwImage.get_sw_ver`: u32 LE at offset 0x08. -/
def FwImage_get_sw_ver (file : List Nat) : Nat := int_from_bytes_le (FwImage_read file 0x08 4)

/-- `FwImage.get_hw_ver`: u32 LE at offset 0x0C. -/
def FwImage_get_hw_ver (file : List Nat) : Nat := int_from_bytes_le (FwImage_read file 0x0C 4)

/-- `FwImage.get_fw_size`: u32 LE at offset 0x10. -/
def FwImage_get_fw_size (file : List Nat) : Nat := int_from_bytes_le (FwImage_read file 0x10 4)

/-- `FwImage.validate` (BootFrame.py lines 219-245): recompute the CRC-8
(seed 0xB6) over header bytes [1..256) and compare with byte 0 (read as
`self.read(0, 1)[0]`, modeled with default 0 for the degenerate empty
file). -/
def FwImage_validate (file : List Nat) : Bool :=
  FwImage_calc_crc8 (FwImage_read file 1 255) == (FwImage_read file 0 1).getD 0 0

/-- The `upgrade_btn_active` flag after `BootFrame.__browse_btn_press`
(lines 427-497) selects a file: when the "Validate FW image" switch is on,
the button is enabled exactly when `validate()` succeeds; when the switch
is off (its initial state), the `else` branch enables the button WITHOUT
validating. -/
def browse_upgrade_btn_active (file : List Nat) (image_valid_btn : Bool) : Bool :=
  if image_valid_btn then
    if FwImage_validate file then true else false
  else true

/-- `BootProtocol.MSG_ERROR_STR` (BootProtocol.py lines 66-76): a dict with
exactly nine keys. -/
def MSG_ERROR_STR : List (Nat × String) :=
  [(0x00, "OK"),
   (0x01, "Validation error"),
   (0x02, "Invalid request (wrong sequence)"),
   (0x04, "Error during flash write"),
   (0x08, "Error during flash erase"),
   (0x10, "Firmware image size error"),
   (0x20, "Firmware version compatibility error"),
   (0x40, "Hardware version compatibility error"),
   (0x80, "Firmware image signature invalid error")]

/-- `BootProtocol.get_status_str` (line 279-280): a plain dict subscript
`MSG_ERROR_STR[status]`; `none` models the `KeyError` Python raises for a
missing key. -/
def get_status_str (status : Nat) : Option String := MSG_ERROR_STR.lookup status

/-- C9 counterexample: the status byte `0x03` — the bitmask OR of
`VALIDATION (0x01)` and `INV_REQUEST (0x02)` — is not a key of
`MSG_ERROR_STR`, so `get_status_str` raises `KeyError` (here: `none`)
instead of returning a diagnostic string.  The mapping is not total over
bitmask combinations. -/
theorem get_status_str_counterexample : get_status_str 0x03 = none := rfl

/-- C9 amended: `get_status_str` is total exactly over the nine defined
status codes (`OK` and the eight single-bit error flags); each yields a
diagnostic string. -/
theorem get_status_str_amended (s : Nat)
    (h : s ∈ [0x00, 0x01, 0x02, 0x04, 0x08, 0x10, 0x20, 0x40, 0x80]) :
    (get_status_str s).isSome = true := by
  simp only [List.mem_cons, List.not_mem_nil, or_false] at h
  rcases h with h | h | h | h | h | h | h | h | h <;> subst h <;> rfl

/-- Witness for the amended C9: the single-flag status `0x02`. -/
theorem get_status_str_amended_witness : (get_status_str 0x02).isSome = true :=
  get_status_str_amended 0x02 (by decide)

/-- A 256-byte firmware image header whose CRC byte (byte 0) is off by one
from the correct CRC of its other 255 bytes: its header CRC check fails by
construction. -/
def bad_fw_file : List Nat :=
  (FwImage_calc_crc8 (List.replicate 255 1) + 1) :: List.replicate 255 1

lemma bad_fw_file_read1 : FwImage_read bad_fw_file 1 255 = List.replicate 255 1 := by
  unfold FwImage_read bad_fw_file
  rw [List.drop_succ_cons, List.drop_zero, List.take_replicate, Nat.min_self]

lemma bad_fw_file_crc_byte : (FwImage_read bad_fw_file 0 1).getD 0 0
    = FwImage_calc_crc8 (List.replicate 255 1) + 1 := by
  unfold FwImage_read bad_fw_file
  rw [List.drop_zero, List.take_succ_cons, List.take_zero]
  rfl

/-- C8 counterexample: a 256-byte header whose CRC byte is wrong fails
validation, yet selecting it with the "Validate FW image" switch off (the
switch's initial state) ENABLES the upgrade button: validation is skipped
entirely and an upgrade session can start for the corrupt image. -/
theorem fw_validate_counterexample :
    FwImage_validate bad_fw_file = false
    ∧ browse_upgrade_btn_active bad_fw_file false = true := by
  constructor
  · unfold FwImage_validate
    rw [bad_fw_file_read1, bad_fw_file_crc_byte]
    generalize FwImage_calc_crc8 (List.replicate 255 1) = c
    exact beq_eq_false_iff_ne.mpr (Nat.ne_of_lt (Nat.lt_succ_self c))
  · rfl

/-- C8 amended: `validate()` returns false for every file whose recomputed
header CRC differs from header byte 0, and with the "Validate FW image"
switch enabled the browse handler leaves the upgrade button disabled for
such a file, so no upgrade session can start. -/
theorem fw_validate_blocks_amended (file : List Nat)
    (h : FwImage_calc_crc8 (FwImage_read file 1 255) ≠ (FwImage_read file 0 1).getD 0 0) :
    FwImage_validate file = false ∧ browse_upgrade_btn_active file true = false := by
  have hv : FwImage_validate file = false := beq_eq_false_iff_ne.mpr h
  refine ⟨hv, ?_⟩
  unfold browse_upgrade_btn_active
  rw [if_pos rfl, hv]
  rfl

/-- Witness for the amended C8: the corrupt 256-byte header. -/
theorem fw_validate_blocks_amended_witness :
    FwImage_validate bad_fw_file = false
    ∧ browse_upgrade_btn_active bad_fw_file true = false :=
  fw_validate_blocks_amended bad_fw_file (by
    rw [bad_fw_file_read1, bad_fw_file_crc_byte]
    generalize FwImage_calc_crc8 (List.replicate 255 1) = c
    exact Nat.ne_of_lt (Nat.lt_succ_self c))

/-- A Python value passed as an argument: the orchestrator passes ints
where `send_prepare` expects a bytes-like image header. -/
inductive PyVal where
  | int (n : Nat)
  | bytes (bs : List Nat)

/-- A Python call of `BootProtocol.send_prepare` with a positional argument
list.  The `def send_prepare(self, image_header)` takes exactly one
argument, so any other count raises `TypeError` before the body runs (and a
single int argument fails at `len(image_header)` inside the body, also a
`TypeError`). -/
def send_prepare_call (args : List PyVal) : Except String (List Nat) :=
  match args with
  | [PyVal.bytes image_header] => Except.ok (send_prepare image_header)
  | _ => Except.error "TypeError"

/-- The status-OK path of `BootFrame.__boot_connect_rx_cmpt_cb` (BootFrame.py
lines 627-647): read `fw_size`, `sw_ver` and `hw_ver` from the image, then
invoke `self.bootProtocol.send_prepare( fw_size, sw_ver, hw_ver )` — three
arguments.  On success the sent prepare frame and the 10-second prepare
timeout restart (`self.com_timer.reset( BOOT_COM_PREPARE_TIMEOUT_SEC )`)
would be produced. -/
def boot_connect_rx_cmpt_cb_ok (file : List Nat) : Except String (List Nat × ℚ) :=
  let fw_size := FwImage_get_fw_size file
  let sw_ver := FwImage_get_sw_ver file
  let hw_ver := FwImage_get_hw_ver file
  match send_prepare_call [PyVal.int fw_size, PyVal.int sw_ver, PyVal.int hw_ver] with
  | Except.ok frame => Except.ok (frame, 10)
  | Except.error e => Except.error e

/-- C6: for EVERY firmware image, handling a connect-rsp with status OK
raises a `TypeError` instead of sending a prepare frame: the callback
passes three arguments `(fw_size, sw_ver, hw_ver)` to
`BootProtocol.send_prepare`, whose signature takes the single argument
`image_header`.  No prepare frame is emitted and the timer reset is never
reached. -/
theorem connect_cb_prepare_type_error (file : List Nat) :
    boot_connect_rx_cmpt_cb_ok file = Except.error "TypeError" := rfl

/-- `BOOT_FLASH_DATA_FRAME_SIZE` (BootFrame.py line 40). -/
def BOOT_FLASH_DATA_FRAME_SIZE : Nat := 1024

/-- A wire or user-visible effect of an orchestrator callback:
a `send_flash_data` frame, a `send_exit` frame, or a reported progress
value (`working_addr / get_fw_size() * 100`).  Timer restarts and progress
bar widgets are abstracted away. -/
inductive UpgradeEv where
  | flash (data : List Nat)
  | exitCmd
  | progress (p : ℚ)
deriving DecidableEq

/-- The orchestrator state the callbacks read and write: `working_addr`,
the Upgrade/Cancel button text (the guard `"Cancel" == get_text()`), and
the status label. -/
structure UpgradeSt where
  working_addr : Nat
  btn_text : String
  status_text : String
deriving DecidableEq

/-- `BootFrame.__boot_prepare_rx_cmpt_cb` (lines 665-699): when upgrading
(`btn = "Cancel"`) and the status is OK, reset `working_addr` to 0, read
the first chunk, and when it is non-empty send it and advance
`working_addr`; an error status reverts the button and reports the status
string. -/
def boot_prepare_rx_cmpt_cb (file : List Nat) (st : UpgradeSt) (status : Nat) :
    UpgradeSt × List UpgradeEv :=
  if st.btn_text = "Cancel" then
    if status = 0 then
      let data := FwImage_read file 0 BOOT_FLASH_DATA_FRAME_SIZE
      let data_len := data.length
      if 0 < data_len then
        ({ st with working_addr := 0 + data_len, status_text := "Flashing..." },
          [UpgradeEv.flash data])
      else
        ({ st with working_addr := 0, status_text := "Flashing..." }, [])
    else
      ({ st with
          btn_text := "Upgrade",
          status_text := "ERROR:" ++ (get_status_str status).getD "" }, [])
  else (st, [])

/-- `BootFrame.__boot_flash_rx_cmpt_cb` (lines 708-750): on flash-rsp OK,
read the next chunk at `working_addr`; a non-empty chunk is sent and
`working_addr` advanced, an empty one triggers `send_exit`; in every case
inside the guard the progress `working_addr / get_fw_size() * 100` is
reported afterwards. -/
def boot_flash_rx_cmpt_cb (file : List Nat) (st : UpgradeSt) (status : Nat) :
    UpgradeSt × List UpgradeEv :=
  if st.btn_text = "Cancel" then
    if status = 0 then
      let data := FwImage_read file st.working_addr BOOT_FLASH_DATA_FRAME_SIZE
      let data_len := data.length
      if 0 < data_len then
        ({ st with working_addr := st.working_addr + data_len },
          [UpgradeEv.flash data,
           UpgradeEv.progress (((st.working_addr + data_len : Nat) : ℚ)
             / ((FwImage_get_fw_size file : Nat) : ℚ) * 100)])
      else
        ({ st with status_text := "Post-validating..." },
          [UpgradeEv.exitCmd,
           UpgradeEv.progress (((st.working_addr : Nat) : ℚ)
             / ((FwImage_get_fw_size file : Nat) : ℚ) * 100)])
    else
      ({ st with
          btn_text := "Upgrade",
          status_text := "ERROR:" ++ (get_status_str status).getD "" },
        [UpgradeEv.progress (((st.working_addr : Nat) : ℚ)
          / ((FwImage_get_fw_size file : Nat) : ℚ) * 100)])
  else (st, [])

/-- `BootFrame.__boot_exit_rx_cmpt_cb` (lines 759-789): on exit-rsp OK the
success message is shown (elapsed-time formatting abstracted) and the
button reverts to "Upgrade" in both branches. -/
def boot_exit_rx_cmpt_cb (st : UpgradeSt) (status : Nat) : UpgradeSt × List UpgradeEv :=
  if st.btn_text = "Cancel" then
    if status = 0 then
      ({ st with
          btn_text := "Upgrade",
          status_text := "Application successfully upgraded" }, [])
    else
      ({ st with
          btn_text := "Upgrade",
          status_text := "ERROR: " ++ (get_status_str status).getD "" }, [])
  else (st, [])

lemma FwImage_read_length (file : List Nat) (addr size : Nat) :
    (FwImage_read file addr size).length = min size (file.length - addr) := by
  simp [FwImage_read]

lemma flash_cb_ok_spec (file : List Nat) (st : UpgradeSt) (hb : st.btn_text = "Cancel")
    (ha : st.working_addr < file.length) :
    boot_flash_rx_cmpt_cb file st 0 =
      ({ st with working_addr := st.working_addr
          + (FwImage_read file st.working_addr 1024).length },
       [UpgradeEv.flash (FwImage_read file st.working_addr 1024),
        UpgradeEv.progress (((st.working_addr
          + (FwImage_read file st.working_addr 1024).length : Nat) : ℚ)
          / ((FwImage_get_fw_size file : Nat) : ℚ) * 100)]) := by
  have hpos : 0 < (FwImage_read file st.working_addr 1024).length := by
    rw [FwImage_read_length]
    omega
  simp [boot_flash_rx_cmpt_cb, BOOT_FLASH_DATA_FRAME_SIZE, hb, hpos]

lemma flash_cb_exit_spec (file : List Nat) (st : UpgradeSt) (hb : st.btn_text = "Cancel")
    (ha : file.length ≤ st.working_addr) :
    boot_flash_rx_cmpt_cb file st 0 =
      ({ st with status_text := "Post-validating..." },
       [UpgradeEv.exitCmd,
        UpgradeEv.progress (((st.working_addr : Nat) : ℚ)
          / ((FwImage_get_fw_size file : Nat) : ℚ) * 100)]) := by
  have hz : ¬(0 < (FwImage_read file st.working_addr 1024).length) := by
    rw [FwImage_read_length]
    omega
  simp [boot_flash_rx_cmpt_cb, BOOT_FLASH_DATA_FRAME_SIZE, hb, hz]

lemma prepare_cb_ok_spec (file : List Nat) (st : UpgradeSt) (hb : st.btn_text = "Cancel")
    (hpos : 0 < file.length) :
    boot_prepare_rx_cmpt_cb file st 0 =
      ({ st with
          working_addr := 0 + (FwImage_read file 0 1024).length,
          status_text := "Flashing..." },
       [UpgradeEv.flash (FwImage_read file 0 1024)]) := by
  have hp : 0 < (FwImage_read file 0 1024).length := by
    rw [FwImage_read_length]
    omega
  simp [boot_prepare_rx_cmpt_cb, BOOT_FLASH_DATA_FRAME_SIZE, hb, hp]

lemma exit_cb_ok_spec (st : UpgradeSt) (hb : st.btn_text = "Cancel") :
    boot_exit_rx_cmpt_cb st 0 =
      ({ st with
          btn_text := "Upgrade",
          status_text := "Application successfully upgraded" }, []) := by
  simp [boot_exit_rx_cmpt_cb, hb]

/-- The golden-path driver for the flash stage: a simulated device that
answers every `send_flash_data` frame with a flash-rsp of status OK.  The
loop delivers one flash-rsp to the callback; while the callback keeps
sending chunks (exactly while `working_addr < len(file)`), the device keeps
answering. -/
def ok_flash_loop (file : List Nat) (st : UpgradeSt) : UpgradeSt × List UpgradeEv :=
  if h : st.btn_text = "Cancel" ∧ st.working_addr < file.length then
    ((ok_flash_loop file (boot_flash_rx_cmpt_cb file st 0).1).1,
      (boot_flash_rx_cmpt_cb file st 0).2
        ++ (ok_flash_loop file (boot_flash_rx_cmpt_cb file st 0).1).2)
  else
    boot_flash_rx_cmpt_cb file st 0
termination_by file.length - st.working_addr
decreasing_by
  all_goals
    simp only [flash_cb_ok_spec file st h.1 h.2, FwImage_read_length]
    omega

/-- The orchestrator state right after the connect stage set the button to
"Cancel" (prepare-rsp pending). -/
def upgrade_start_st : UpgradeSt := ⟨0, "Cancel", "Pre-validating and preparing flash..."⟩

/-- Handling of the prepare-rsp OK in the golden path. -/
def ok_session_prepare (file : List Nat) : UpgradeSt × List UpgradeEv :=
  boot_prepare_rx_cmpt_cb file upgrade_start_st 0

/-- The whole OK-driven session from the prepare-rsp on: the prepare
callback sends the first chunk, every flash-rsp is answered OK, and the
final exit-rsp OK is delivered to the exit callback. -/
def ok_upgrade_session (file : List Nat) : UpgradeSt × List UpgradeEv :=
  if file.length = 0 then ok_session_prepare file
  else
    ((boot_exit_rx_cmpt_cb (ok_flash_loop file (ok_session_prepare file).1).1 0).1,
      (ok_session_prepare file).2
        ++ (ok_flash_loop file (ok_session_prepare file).1).2
        ++ (boot_exit_rx_cmpt_cb (ok_flash_loop file (ok_session_prepare file).1).1 0).2)

/-- The number of `send_flash_data` frames among the recorded events. -/
def countFlash (evs : List UpgradeEv) : Nat :=
  (evs.filter fun e => match e with
    | UpgradeEv.flash _ => true
    | _ => false).length

lemma countFlash_append (a b : List UpgradeEv) :
    countFlash (a ++ b) = countFlash a + countFlash b := by
  simp [countFlash, List.filter_append]

lemma progress_le_100 (a S : Nat) (h : a ≤ S) (hS : 0 < S) :
    ((a : ℚ) / (S : ℚ)) * 100 ≤ 100 := by
  have hS' : (0 : ℚ) < S := by exact_mod_cast hS
  have h1 : (a : ℚ) / S ≤ 1 := by
    rw [div_le_one hS']
    exact_mod_cast h
  calc (a : ℚ) / S * 100 ≤ 1 * 100 := by
        apply mul_le_mul_of_nonneg_right h1
        norm_num
    _ = 100 := by norm_num

lemma ok_flash_loop_spec (file : List Nat) :
    ∀ (n : Nat) (st : UpgradeSt), file.length - st.working_addr = n →
      st.btn_text = "Cancel" → st.working_addr ≤ file.length →
      countFlash (ok_flash_loop file st).2
          = (file.length - st.working_addr + 1023) / 1024
      ∧ (ok_flash_loop file st).1.working_addr = file.length
      ∧ (ok_flash_loop file st).1.btn_text = "Cancel"
      ∧ (ok_flash_loop file st).1.status_text = "Post-validating..."
      ∧ UpgradeEv.exitCmd ∈ (ok_flash_loop file st).2
      ∧ UpgradeEv.progress (((file.length : Nat) : ℚ)
          / ((FwImage_get_fw_size file : Nat) : ℚ) * 100) ∈ (ok_flash_loop file st).2
      ∧ (∀ p, UpgradeEv.progress p ∈ (ok_flash_loop file st).2 →
          ∃ a : Nat, a ≤ file.length
            ∧ p = ((a : Nat) : ℚ) / ((FwImage_get_fw_size file : Nat) : ℚ) * 100) := by
  intro n
  induction n using Nat.strong_induction_on with
  | _ n ih =>
    intro st hn hb ha
    by_cases hc : st.working_addr < file.length
    · have hdlen : (FwImage_read file st.working_addr 1024).length
          = min 1024 (file.length - st.working_addr) := FwImage_read_length file _ _
      have hd0 : 0 < (FwImage_read file st.working_addr 1024).length := by
        rw [hdlen]; omega
      rw [ok_flash_loop, dif_pos ⟨hb, hc⟩]
      rw [flash_cb_ok_spec file st hb hc]
      have hrec := ih (file.length
          - (st.working_addr + (FwImage_read file st.working_addr 1024).length))
        (by omega)
        { st with working_addr := st.working_addr
            + (FwImage_read file st.working_addr 1024).length }
        rfl hb (by simp only []; omega)
      obtain ⟨hcount, haddr, hbtn, hstat, hexit, hlastp, hprog⟩ := hrec
      simp only [] at hcount
      refine ⟨?_, haddr, hbtn, hstat, ?_, ?_, ?_⟩
      · rw [countFlash_append, hcount]
        have hone : countFlash
            [UpgradeEv.flash (FwImage_read file st.working_addr 1024),
             UpgradeEv.progress (((st.working_addr
               + (FwImage_read file st.working_addr 1024).length : Nat) : ℚ)
               / ((FwImage_get_fw_size file : Nat) : ℚ) * 100)] = 1 := rfl
        rw [hone]
        omega
      · exact List.mem_append_right _ hexit
      · exact List.mem_append_right _ hlastp
      · intro p hp
        rcases List.mem_append.mp hp with hp1 | hp2
        · have hpeq : p = ((st.working_addr
              + (FwImage_read file st.working_addr 1024).length : Nat) : ℚ)
              / ((FwImage_get_fw_size file : Nat) : ℚ) * 100 := by
            simp only [List.mem_cons, List.not_mem_nil, or_false] at hp1
            rcases hp1 with hA | hB
            · exact absurd hA (by simp)
            · exact (UpgradeEv.progress.injEq _ _).mp hB
          exact ⟨st.working_addr + (FwImage_read file st.working_addr 1024).length,
            by omega, hpeq⟩
        · exact hprog p hp2
    · have haeq : st.working_addr = file.length := by omega
      have hz : file.length ≤ st.working_addr := by omega
      rw [ok_flash_loop, dif_neg (fun hcon => hc hcon.2)]
      rw [flash_cb_exit_spec file st hb hz]
      refine ⟨?_, by simpa using haeq, by simpa using hb, rfl, ?_, ?_, ?_⟩
      · show (0 : Nat) = (file.length - st.working_addr + 1023) / 1024
        omega
      · exact List.mem_cons_self _ _
      · rw [← haeq]
        exact List.mem_cons_of_mem _ (List.mem_cons_self _ _)
      · intro p hp
        have hpeq : p = ((st.working_addr : Nat) : ℚ)
            / ((FwImage_get_fw_size file : Nat) : ℚ) * 100 := by
          simp only [List.mem_cons, List.not_mem_nil, or_false] at hp
          rcases hp with hA | hB
          · exact absurd hA (by simp)
          · exact (UpgradeEv.progress.injEq _ _).mp hB
        exact ⟨st.working_addr, by omega, hpeq⟩

lemma ok_upgrade_session_spec (file : List Nat) (hpos : 0 < file.length) :
    countFlash (ok_upgrade_session file).2 = (file.length + 1023) / 1024
    ∧ (ok_upgrade_session file).1.working_addr = file.length
    ∧ UpgradeEv.progress (((file.length : Nat) : ℚ)
        / ((FwImage_get_fw_size file : Nat) : ℚ) * 100) ∈ (ok_upgrade_session file).2
    ∧ (∀ p, UpgradeEv.progress p ∈ (ok_upgrade_session file).2 →
        ∃ a : Nat, a ≤ file.length
          ∧ p = ((a : Nat) : ℚ) / ((FwImage_get_fw_size file : Nat) : ℚ) * 100)
    ∧ UpgradeEv.exitCmd ∈ (ok_upgrade_session file).2
    ∧ (ok_upgrade_session file).1.status_text = "Application successfully upgraded"
    ∧ (ok_upgrade_session file).1.btn_text = "Upgrade" := by
  set st1 : UpgradeSt := { upgrade_start_st with
      working_addr := 0 + (FwImage_read file 0 1024).length,
      status_text := "Flashing..." } with hst1
  have hprep : ok_session_prepare file
      = (st1, [UpgradeEv.flash (FwImage_read file 0 1024)]) := by
    rw [ok_session_prepare, hst1]
    exact prepare_cb_ok_spec file upgrade_start_st rfl hpos
  have hst1b : st1.btn_text = "Cancel" := rfl
  have hst1a : st1.working_addr = 0 + (FwImage_read file 0 1024).length := rfl
  have hd0 : (FwImage_read file 0 1024).length = min 1024 (file.length - 0) :=
    FwImage_read_length file 0 1024
  have hle : st1.working_addr ≤ file.length := by
    rw [hst1a]
    omega
  have hloop := ok_flash_loop_spec file (file.length - st1.working_addr) st1 rfl hst1b hle
  obtain ⟨hcount, haddr, hbtn, hstat, hexit, hlastp, hprog⟩ := hloop
  have hexitcb := exit_cb_ok_spec (ok_flash_loop file st1).1 hbtn
  have hsess : ok_upgrade_session file =
      ((boot_exit_rx_cmpt_cb (ok_flash_loop file (ok_session_prepare file).1).1 0).1,
        (ok_session_prepare file).2
          ++ (ok_flash_loop file (ok_session_prepare file).1).2
          ++ (boot_exit_rx_cmpt_cb (ok_flash_loop file (ok_session_prepare file).1).1 0).2) := by
    rw [ok_upgrade_session, if_neg (by omega)]
  rw [hsess]
  simp only [hprep]
  simp only [hexitcb]
  refine ⟨?_, ?_, ?_, ?_, ?_, trivial, trivial⟩
  · rw [countFlash_append, countFlash_append, hcount]
    have h1 : countFlash [UpgradeEv.flash (FwImage_read file 0 1024)] = 1 := rfl
    have h2 : countFlash ([] : List UpgradeEv) = 0 := rfl
    rw [h1, h2]
    omega
  · omega
  · exact List.mem_append_left _ (List.mem_append_right _ hlastp)
  · intro p hp
    rcases List.mem_append.mp hp with hp1 | hp2
    · rcases List.mem_append.mp hp1 with hpa | hpb
      · exact absurd hpa (by simp)
      · exact hprog p hpb
    · exact absurd hp2 (by simp)
  · exact List.mem_append_left _ (List.mem_append_right _ hexit)

/-- C5 amended: the orchestrator flashes the WHOLE FILE, not the
header-declared size: from the prepare-rsp OK on, an always-OK device
drives exactly `ceil(len(file)/1024)` send_flash_data/flash-rsp cycles,
`working_addr` ends at `len(file)`, every reported progress equals
`a / get_fw_size() * 100` for some `a ≤ len(file)` — the last one being
`len(file) / get_fw_size() * 100`, which exceeds 100 whenever the file is
longer than its header size field (as it is under the documented layout of
a 256-byte header followed by the application) — and the session then
sends exit and reaches the success terminal state. -/
theorem upgrade_whole_file_amended (file : List Nat) (hpos : 0 < file.length) :
    countFlash (ok_upgrade_session file).2 = (file.length + 1023) / 1024
    ∧ (ok_upgrade_session file).1.working_addr = file.length
    ∧ UpgradeEv.progress (((file.length : Nat) : ℚ)
        / ((FwImage_get_fw_size file : Nat) : ℚ) * 100) ∈ (ok_upgrade_session file).2
    ∧ (∀ p, UpgradeEv.progress p ∈ (ok_upgrade_session file).2 →
        ∃ a : Nat, a ≤ file.length
          ∧ p = ((a : Nat) : ℚ) / ((FwImage_get_fw_size file : Nat) : ℚ) * 100)
    ∧ UpgradeEv.exitCmd ∈ (ok_upgrade_session file).2
    ∧ (ok_upgrade_session file).1.status_text = "Application successfully upgraded"
    ∧ (ok_upgrade_session file).1.btn_text = "Upgrade" :=
  ok_upgrade_session_spec file hpos

/-- A firmware image laid out as the documentation prescribes: a 256-byte
header whose size field (offset 0x10, little-endian) is S = 4, followed by
S = 4 application bytes — 260 bytes in all. -/
def cex_fw_file : List Nat :=
  List.replicate 16 0 ++ [4, 0, 0, 0] ++ List.replicate 236 0 ++ [1, 2, 3, 4]

-- C5 counterexample: for a conforming image (256-byte header with size
-- field S = 4, then 4 application bytes), the always-OK session does NOT
-- stop at the header-declared size: working_addr ends at 260, not at
-- S = 4, and the reported progress reaches 260 / 4 * 100 = 6500 > 100.
set_option maxRecDepth 4000 in
theorem upgrade_size_field_counterexample :
    FwImage_get_fw_size cex_fw_file = 4
    ∧ cex_fw_file.length = 256 + 4
    ∧ (ok_upgrade_session cex_fw_file).1.working_addr = 260
    ∧ UpgradeEv.progress 6500 ∈ (ok_upgrade_session cex_fw_file).2
    ∧ ¬(∀ p, UpgradeEv.progress p ∈ (ok_upgrade_session cex_fw_file).2 → p ≤ 100) := by
  obtain ⟨hc, haddr, hlast, hall, hexit, hstat, hbtn⟩ :=
    ok_upgrade_session_spec cex_fw_file (by decide)
  have hsz : FwImage_get_fw_size cex_fw_file = 4 := by decide
  have hlen : cex_fw_file.length = 260 := by decide
  have hval : (((cex_fw_file.length : Nat) : ℚ)
      / ((FwImage_get_fw_size cex_fw_file : Nat) : ℚ) * 100) = 6500 := by
    rw [hlen, hsz]
    norm_num
  refine ⟨hsz, by omega, by rw [haddr, hlen], ?_, ?_⟩
  · rw [← hval]
    exact hlast
  · intro hcon
    have h65 := hcon 6500 (by rw [← hval]; exact hlast)
    norm_num at h65

/-- A concrete 260-byte firmware image whose header size field (offset
0x10, little-endian) happens to equal its own length, so the whole-file
session flashes it in ceil(260/1024) = 1 frame with final progress exactly
100. -/
def witness_fw_file : List Nat :=
  List.replicate 16 0 ++ [4, 1, 0, 0] ++ List.replicate 240 7

set_option maxRecDepth 4000 in
theorem upgrade_whole_file_amended_witness :
    countFlash (ok_upgrade_session witness_fw_file).2 = 1
    ∧ (ok_upgrade_session witness_fw_file).1.working_addr = 260
    ∧ UpgradeEv.progress (((witness_fw_file.length : Nat) : ℚ)
        / ((FwImage_get_fw_size witness_fw_file : Nat) : ℚ) * 100)
        ∈ (ok_upgrade_session witness_fw_file).2
    ∧ (∀ p, UpgradeEv.progress p ∈ (ok_upgrade_session witness_fw_file).2 →
        ∃ a : Nat, a ≤ witness_fw_file.length
          ∧ p = ((a : Nat) : ℚ)
            / ((FwImage_get_fw_size witness_fw_file : Nat) : ℚ) * 100)
    ∧ UpgradeEv.exitCmd ∈ (ok_upgrade_session witness_fw_file).2
    ∧ (ok_upgrade_session witness_fw_file).1.status_text
        = "Application successfully upgraded"
    ∧ (ok_upgrade_session witness_fw_file).1.btn_text = "Upgrade" :=
  upgrade_whole_file_amended witness_fw_file (by decide)

end PcTool
